import Mathlib

/-!
# Verification of the edge-request authorization gate

Shallow embedding of `src/cdk/lambda-edge/auth_handler.py`: the
Lambda@Edge viewer-request handler that classifies request paths,
extracts and validates a JWT-shaped identity token from cookies, and
produces one of three outcomes (pass-through, SPA rewrite, or a 302
login redirect).

Python strings are modelled as `List Char`; Python dicts used by the
handler (headers, cookies, JSON objects) are modelled as association
lists with first-match lookup and replace-or-append update; fallible
operations (`d[k]`, `list[0]`, base64/UTF-8/JSON decoding) are modelled
with `Option`/`Except`.  The handler itself mutates the caller's request
dict in place; this is modelled by threading the event state: the
embedded `handler` returns both the Python return value and the final
state of the caller-owned event structure.
-/

set_option maxRecDepth 10000

abbrev Str := List Char

/-- Python `str.split(sep)` for a single-character separator:
`"a.b".split "." = ["a","b"]`, `"".split "." = [""]`. -/
def splitOnChar (c : Char) : Str → List Str
  | [] => [[]]
  | x :: xs =>
    match splitOnChar c xs with
    | [] => if x = c then [[], [x]] else [[x]]   -- unreachable: result is never []
    | h :: t => if x = c then [] :: h :: t else (x :: h) :: t

/-- Python substring test `needle in hay`. -/
def strContains (needle : Str) : Str → Bool
  | [] => needle.isEmpty
  | c :: rest => needle.isPrefixOf (c :: rest) || strContains needle rest

/-- The characters CPython's `str.strip()` removes (`Py_UNICODE_ISSPACE`):
the ASCII whitespace `\t\n\v\f\r` and space, the file/group/record/unit
separators `\x1c`-`\x1f`, NEL `\x85`, NBSP `\xa0`, and the Unicode
space/line/paragraph separators. -/
def isPySpace (c : Char) : Bool :=
  let n := c.toNat
  (0x09 ≤ n && n ≤ 0x0D) || (0x1C ≤ n && n ≤ 0x1F) || n = 0x20 ||
    n = 0x85 || n = 0xA0 || n = 0x1680 || (0x2000 ≤ n && n ≤ 0x200A) ||
    n = 0x2028 || n = 0x2029 || n = 0x202F || n = 0x205F || n = 0x3000

/-- Python `str.strip()` (default, whitespace). -/
def pyStrip (s : Str) : Str :=
  ((s.dropWhile isPySpace).reverse.dropWhile isPySpace).reverse

/-- Python `str.rstrip("/")`: remove every trailing `'/'`. -/
def pyRstripSlash (s : Str) : Str :=
  (s.reverse.dropWhile (· = '/')).reverse

/-- First-match association-list lookup, modelling Python `dict` access
(`d.get(k)` / `k in d`); dict keys are unique so first match is the match. -/
def dictGet {α : Type} (d : List (Str × α)) (k : Str) : Option α :=
  match d with
  | [] => none
  | (k', v) :: rest => if k' = k then some v else dictGet rest k

/-- Python `d[k] = v`: replace the existing binding in place, else append. -/
def dictSet {α : Type} (d : List (Str × α)) (k : Str) (v : α) : List (Str × α) :=
  match d with
  | [] => [(k, v)]
  | (k', v') :: rest => if k' = k then (k, v) :: rest else (k', v') :: dictSet rest k v

/-! ## Configuration constants (lines 9-21 of `auth_handler.py`) -/

def PROTECTED_ROUTES : List Str :=
  ["/admin".toList, "/dashboard".toList, "/profile".toList,
   "/api/protected".toList, "/settings".toList]

def COGNITO_DOMAIN : Str := "sflt-auth.auth.ap-southeast-2.amazoncognito.com".toList
def COGNITO_CLIENT_ID : Str := "2chnp95qkugngcet88uiokikpm".toList
def COGNITO_REGION : Str := "ap-southeast-2".toList
def USER_POOL_ID : Str := "ap-southeast-2_u6zH1Pbty".toList

/-- `is_protected_route` (lines 24-33): normalize with `uri.rstrip("/")`,
then protected iff the result equals a configured route or starts with
`route + "/"`. -/
def is_protected_route (uri : Str) : Bool :=
  let u := pyRstripSlash uri
  PROTECTED_ROUTES.any fun route => u == route || (route ++ ['/']).isPrefixOf u

/-- Normalization as the spec words it: strip a SINGLE trailing slash. -/
def stripOneTrailingSlash (s : Str) : Str :=
  if s.getLast? = some '/' then s.dropLast else s

/-- Protected-route classification as the spec words it (single-slash
normalization), to be compared with `is_protected_route`. -/
def spec_protected_route (uri : Str) : Bool :=
  let u := stripOneTrailingSlash uri
  PROTECTED_ROUTES.any fun route => u == route || (route ++ ['/']).isPrefixOf u

/-! ## Python JSON values and `json.loads` / `json.dumps`

`json.loads` is modelled by a strict recursive-descent parser over
`List Char` producing `PyJson`, following CPython's scanner: integers
(`int`), floats (correctly rounded IEEE-754 binary64, including the
default `NaN`/`Infinity`/`-Infinity` constants and overflow to
infinity), strings with the full escape set — a `\uXXXX` pair of
surrogate escapes combines into one scalar, and an unpaired surrogate
escape is kept, giving a string value outside Unicode scalar range
(constructor `ustr`).

Two deliberate idealizations, neither observable through the gate: an
object member whose KEY contains a lone surrogate is dropped from the
association list after its value is parsed (such a key can never equal
any of the ASCII claim keys the gate reads, and a dict made nonempty
only by such keys behaves identically in the gate because
`not payload or not is_jwt_valid(payload)` is true either way — a dict
with no representable keys has no `exp`); and CPython's
runtime-configurable limits (the interpreter recursion limit for deeply
nested documents, the 4300-digit `int()` conversion limit) are not
modelled, as they are properties of the runtime configuration rather
than of the function. -/

/-- A Python `float`: an IEEE-754 binary64 value, represented by its
exact rational value (the sign of a zero is dropped: `0.0` and `-0.0`
are indistinguishable by `==`, `<`, and truthiness). -/
inductive PyFloat where
  | nan : PyFloat
  | inf (neg : Bool) : PyFloat
  | finite (q : ℚ) : PyFloat
deriving DecidableEq

inductive PyJson where
  | null : PyJson
  | bool (b : Bool) : PyJson
  | num (n : Int) : PyJson
  | float (f : PyFloat) : PyJson
  | str (s : Str) : PyJson
  | ustr (u : List Nat) : PyJson
  | arr (xs : List PyJson) : PyJson
  | obj (kvs : List (Str × PyJson)) : PyJson

/-- Truthiness of a Python float (`0.0` and `-0.0` falsy, `nan` and the
infinities truthy). -/
def PyFloat.falsy : PyFloat → Bool
  | .finite q => q == 0
  | _ => false

/-- Python `f < (t : int)` for a float `f`: exact comparison; `nan`
compares false against everything. -/
def PyFloat.ltInt : PyFloat → Int → Bool
  | .finite q, t => decide (q < (t : ℚ))
  | .inf neg, _ => neg
  | .nan, _ => false

/-- Python truthiness of a JSON-shaped value (`not payload`). -/
def pyFalsy : PyJson → Bool
  | .null => true
  | .bool b => !b
  | .num n => n == 0
  | .float f => f.falsy
  | .str s => s.isEmpty
  | .ustr u => u.isEmpty
  | .arr xs => xs.isEmpty
  | .obj kvs => kvs.isEmpty

def hexVal (c : Char) : Option Nat :=
  if '0' ≤ c ∧ c ≤ '9' then some (c.toNat - '0'.toNat)
  else if 'a' ≤ c ∧ c ≤ 'f' then some (c.toNat - 'a'.toNat + 10)
  else if 'A' ≤ c ∧ c ≤ 'F' then some (c.toNat - 'A'.toNat + 10)
  else none

def digitVal (c : Char) : Option Nat :=
  if '0' ≤ c ∧ c ≤ '9' then some (c.toNat - '0'.toNat) else none

/-- JSON insignificant whitespace. -/
def isJsonWs (c : Char) : Bool :=
  c = ' ' || c = '\t' || c = '\n' || c = '\r'

def skipWs (s : Str) : Str := s.dropWhile isJsonWs

/-- After a high surrogate `\uXXXX` with value `n`, parse the required
low-surrogate escape and combine the pair into one scalar value. -/
def parseLowSurrogate (n : Nat) : Str → Option (Nat × Str)
  | e1 :: e2 :: g1 :: g2 :: g3 :: g4 :: r3 =>
    if e1 = '\\' ∧ e2 = 'u' then
      match hexVal g1, hexVal g2, hexVal g3, hexVal g4 with
      | some a, some b, some c, some d =>
        let m := ((a * 16 + b) * 16 + c) * 16 + d
        if 0xDC00 ≤ m ∧ m < 0xE000 then
          some (0x10000 + (n - 0xD800) * 0x400 + (m - 0xDC00), r3)
        else none
      | _, _, _, _ => none
    else none
  | _ => none

/-- Parse the hex digits of a `\u` escape (the `\u` already consumed);
returns the decoded code point and the remainder.  A high surrogate
followed by a low-surrogate escape combines into one scalar value
consuming both; otherwise the (lone) surrogate value is kept as is and
the following input is left to be parsed normally, exactly as CPython's
scanner does. -/
def parseUEscape : Str → Option (Nat × Str)
  | h1 :: h2 :: h3 :: h4 :: rest2 =>
    match hexVal h1, hexVal h2, hexVal h3, hexVal h4 with
    | some a, some b, some c, some d =>
      let n := ((a * 16 + b) * 16 + c) * 16 + d
      if 0xD800 ≤ n ∧ n < 0xDC00 then
        match parseLowSurrogate n rest2 with
        | some r => some r
        | none => some (n, rest2)
      else some (n, rest2)
    | _, _, _, _ => none
  | _ => none

/-- Parse the body of a JSON string literal (the opening quote already
consumed); returns the decoded content and the remainder after the
closing quote.  Fuel-bounded (each step consumes at least one character,
so fuel equal to the input length always suffices); callers pass the
remaining input length.  The content is returned as code points, since a
lone surrogate escape yields a Python `str` outside scalar range. -/
def parseStringBody : Nat → Str → Option (List Nat × Str)
  | 0, _ => none
  | _ + 1, [] => none
  | fuel + 1, c :: rest =>
    if c = '"' then some ([], rest)
    else if c = '\\' then
      match rest with
      | [] => none
      | e :: rest1 =>
        if e = '"' then (parseStringBody fuel rest1).map fun (s, r) => ('"'.toNat :: s, r)
        else if e = '\\' then (parseStringBody fuel rest1).map fun (s, r) => ('\\'.toNat :: s, r)
        else if e = '/' then (parseStringBody fuel rest1).map fun (s, r) => ('/'.toNat :: s, r)
        else if e = 'b' then (parseStringBody fuel rest1).map fun (s, r) => ('\x08'.toNat :: s, r)
        else if e = 'f' then (parseStringBody fuel rest1).map fun (s, r) => ('\x0c'.toNat :: s, r)
        else if e = 'n' then (parseStringBody fuel rest1).map fun (s, r) => ('\n'.toNat :: s, r)
        else if e = 'r' then (parseStringBody fuel rest1).map fun (s, r) => ('\r'.toNat :: s, r)
        else if e = 't' then (parseStringBody fuel rest1).map fun (s, r) => ('\t'.toNat :: s, r)
        else if e = 'u' then
          match parseUEscape rest1 with
          | some (m, r3) => (parseStringBody fuel r3).map fun (s, r) => (m :: s, r)
          | none => none
        else none
    else if c.toNat < 0x20 then none
    else (parseStringBody fuel rest).map fun (s, r) => (c.toNat :: s, r)

/-- Parse a run of decimal digits, accumulating into `acc`. -/
def parseDigits (acc : Nat) : Str → Nat × Str
  | [] => (acc, [])
  | c :: rest =>
    match digitVal c with
    | some d => parseDigits (acc * 10 + d) rest
    | none => (acc, c :: rest)

/-- Parse a run of decimal digits, also counting them (for the
fractional part of a number). -/
def parseCountedDigits (acc cnt : Nat) : Str → Nat × Nat × Str
  | [] => (acc, cnt, [])
  | c :: rest =>
    match digitVal c with
    | some d => parseCountedDigits (acc * 10 + d) (cnt + 1) rest
    | none => (acc, cnt, c :: rest)

/-- Round the positive rational `A / B` to the nearest integer, ties to
even (`B > 0`). -/
def roundHalfEven (A B : Nat) : Nat :=
  let d := A / B
  let r := A % B
  if B < 2 * r then d + 1 else if 2 * r < B then d else d + d % 2

/-- The IEEE-754 binary64 value nearest to the decimal
`(-1)^neg * M * 10^E` (ties to even), as CPython's `float()` computes
for the matched number text: the result is the exact rational value of
the rounded double, an infinity on overflow, and zero on underflow. -/
def floatOfDecimal (neg : Bool) (M : Nat) (E : Int) : PyFloat :=
  if M = 0 then .finite 0
  else
    let d : Int := (Nat.log 10 M : Int) + 1
    if 310 ≤ d + E then .inf neg
    else if d + E ≤ -324 then .finite 0
    else
      let A := M * 10 ^ (max E 0).toNat
      let B := 10 ^ (max (-E) 0).toNat
      let e : Int := (Nat.log2 (A * 2 ^ 1100 / B) : Int) - 1100
      let u : Int := max (e - 52) (-1074)
      let n :=
        if u ≤ 0 then roundHalfEven (A * 2 ^ (-u).toNat) B
        else roundHalfEven A (B * 2 ^ u.toNat)
      if n = 0 then .finite 0
      else
        let q : ℚ := (n : ℚ) * (2 : ℚ) ^ u
        if ((2 : ℚ) ^ (1024 : Nat)) ≤ q then .inf neg
        else .finite (if neg then -q else q)

/-- The optional exponent part `[eE][+-]?digits` of a JSON number. -/
def parseExpPart : Str → Option (Int × Str)
  | e :: rest =>
    if e = 'e' ∨ e = 'E' then
      match rest with
      | '+' :: c :: r =>
        match digitVal c with
        | some d => let (n, r2) := parseDigits d r; some ((n : Int), r2)
        | none => none
      | '-' :: c :: r =>
        match digitVal c with
        | some d => let (n, r2) := parseDigits d r; some (-(n : Int), r2)
        | none => none
      | c :: r =>
        match digitVal c with
        | some d => let (n, r2) := parseDigits d r; some ((n : Int), r2)
        | none => none
      | [] => none
    else none
  | [] => none

/-- Parse a JSON number literal starting at the first digit (no leading
zeros), following CPython's scanner: an integer part alone is an `int`;
a fractional part `.digits` and/or an exponent part makes the matched
text a `float`, converted with correct rounding. -/
def parseNumLit (neg : Bool) : Str → Option (PyJson × Str)
  | c :: rest =>
    match digitVal c with
    | some d =>
      if d = 0 ∧ (rest.head?.bind digitVal).isSome then none
      else
        let (m, r1) := parseDigits d rest
        let fracPart : Option (Nat × Nat × Str) :=
          match r1 with
          | '.' :: fc :: fr =>
            match digitVal fc with
            | some fd => some (parseCountedDigits fd 1 fr)
            | none => none
          | _ => none
        match fracPart with
        | none =>
          match parseExpPart r1 with
          | none => some (.num (if neg then -(m : Int) else (m : Int)), r1)
          | some (ev, r3) => some (.float (floatOfDecimal neg m ev), r3)
        | some (fv, fc, r2) =>
          let M := m * 10 ^ fc + fv
          match parseExpPart r2 with
          | none => some (.float (floatOfDecimal neg M (-(fc : Int))), r2)
          | some (ev, r3) => some (.float (floatOfDecimal neg M (ev - (fc : Int))), r3)
    | none => none
  | [] => none

/-- A code point that is not a Unicode scalar value. -/
def isSurrogateCP (n : Nat) : Bool := 0xD800 ≤ n && n < 0xE000

/-- The Python `str` value of a parsed JSON string: a scalar-only code
point sequence is an ordinary string; one with a lone surrogate is kept
as raw code points. -/
def mkPyStr (u : List Nat) : PyJson :=
  if u.any isSurrogateCP then .ustr u else .str (u.map Char.ofNat)

mutual

/-- Parse one JSON value, fuel-bounded; returns the value and remainder. -/
def parseValue : Nat → Str → Option (PyJson × Str)
  | 0, _ => none
  | fuel + 1, s0 =>
    match skipWs s0 with
    | [] => none
    | c :: rest =>
      if c = '{' then
        match skipWs rest with
        | [] => none
        | c2 :: r2 => if c2 = '}' then some (.obj [], r2) else parseMembers fuel (c2 :: r2) []
      else if c = '[' then
        match skipWs rest with
        | [] => none
        | c2 :: r2 => if c2 = ']' then some (.arr [], r2) else parseElems fuel (c2 :: r2) []
      else if c = '"' then (parseStringBody rest.length rest).map fun (s, r) => (mkPyStr s, r)
      else if c = 'n' then
        match rest with
        | x1 :: x2 :: x3 :: r =>
          if x1 = 'u' ∧ x2 = 'l' ∧ x3 = 'l' then some (.null, r) else none
        | _ => none
      else if c = 't' then
        match rest with
        | x1 :: x2 :: x3 :: r =>
          if x1 = 'r' ∧ x2 = 'u' ∧ x3 = 'e' then some (.bool true, r) else none
        | _ => none
      else if c = 'f' then
        match rest with
        | x1 :: x2 :: x3 :: x4 :: r =>
          if x1 = 'a' ∧ x2 = 'l' ∧ x3 = 's' ∧ x4 = 'e' then some (.bool false, r) else none
        | _ => none
      else if c = 'N' then
        match rest with
        | x1 :: x2 :: r =>
          if x1 = 'a' ∧ x2 = 'N' then some (.float .nan, r) else none
        | _ => none
      else if c = 'I' then
        match rest with
        | x1 :: x2 :: x3 :: x4 :: x5 :: x6 :: x7 :: r =>
          if x1 = 'n' ∧ x2 = 'f' ∧ x3 = 'i' ∧ x4 = 'n' ∧ x5 = 'i' ∧ x6 = 't' ∧ x7 = 'y' then
            some (.float (.inf false), r)
          else none
        | _ => none
      else if c = '-' then
        match rest with
        | 'I' :: x2 :: x3 :: x4 :: x5 :: x6 :: x7 :: x8 :: r =>
          if x2 = 'n' ∧ x3 = 'f' ∧ x4 = 'i' ∧ x5 = 'n' ∧ x6 = 'i' ∧ x7 = 't' ∧ x8 = 'y' then
            some (.float (.inf true), r)
          else parseNumLit true rest
        | _ => parseNumLit true rest
      else if (digitVal c).isSome then parseNumLit false (c :: rest)
      else none

/-- Parse object members after `{` (and not `}`), accumulating with
`dictSet` so that a duplicated key keeps the last value, as Python does.
A key containing a lone surrogate has its value parsed but is not
entered into the association list (see the module comment above). -/
def parseMembers : Nat → Str → List (Str × PyJson) → Option (PyJson × Str)
  | 0, _, _ => none
  | fuel + 1, s, acc =>
    match s with
    | [] => none
    | c :: rest =>
      if c = '"' then
        match parseStringBody rest.length rest with
        | none => none
        | some (key, r1) =>
          match skipWs r1 with
          | [] => none
          | c2 :: r2 =>
            if c2 = ':' then
              match parseValue fuel r2 with
              | none => none
              | some (v, r3) =>
                let acc' :=
                  if key.any isSurrogateCP then acc
                  else dictSet acc (key.map Char.ofNat) v
                match skipWs r3 with
                | [] => none
                | c3 :: r4 =>
                  if c3 = ',' then parseMembers fuel (skipWs r4) acc'
                  else if c3 = '}' then some (.obj acc', r4)
                  else none
            else none
      else none

/-- Parse array elements after `[` (and not `]`). -/
def parseElems : Nat → Str → List PyJson → Option (PyJson × Str)
  | 0, _, _ => none
  | fuel + 1, s, acc =>
    match parseValue fuel s with
    | none => none
    | some (v, r1) =>
      match skipWs r1 with
      | [] => none
      | c2 :: r2 =>
        if c2 = ',' then parseElems fuel r2 (acc ++ [v])
        else if c2 = ']' then some (.arr (acc ++ [v]), r2)
        else none

end

/-- Python `json.loads`: parse a complete document, allowing surrounding
whitespace only. -/
def jsonLoads (s : Str) : Option PyJson :=
  match parseValue (s.length + 1) s with
  | some (v, rest) => if (skipWs rest).isEmpty then some v else none
  | none => none

/-! ### `json.dumps` for the shapes the gate produces -/

def hexLower (n : Nat) : Char :=
  if n < 10 then Char.ofNat ('0'.toNat + n) else Char.ofNat ('a'.toNat + (n - 10))

def hex4Lower (n : Nat) : Str :=
  [hexLower (n / 4096 % 16), hexLower (n / 256 % 16), hexLower (n / 16 % 16), hexLower (n % 16)]

def jsonUEscape (n : Nat) : Str := '\\' :: 'u' :: hex4Lower n

/-- Per-character escaping of CPython's default (`ensure_ascii=True`)
string encoder: short escapes for `"` `\` and common control characters,
`\uXXXX` (with surrogate pairs above the BMP) for everything outside
printable ASCII. -/
def jsonEscapeChar (c : Char) : Str :=
  if c = '"' then ['\\', '"']
  else if c = '\\' then ['\\', '\\']
  else if c = '\n' then ['\\', 'n']
  else if c = '\r' then ['\\', 'r']
  else if c = '\t' then ['\\', 't']
  else if c = '\x08' then ['\\', 'b']
  else if c = '\x0c' then ['\\', 'f']
  else if 0x20 ≤ c.toNat ∧ c.toNat ≤ 0x7e then [c]
  else if c.toNat < 0x10000 then jsonUEscape c.toNat
  else
    jsonUEscape (0xD800 + (c.toNat - 0x10000) / 0x400) ++
      jsonUEscape (0xDC00 + (c.toNat - 0x10000) % 0x400)

/-- `json.dumps` applied to a Python string. -/
def jsonDumpsStr (s : Str) : Str :=
  '"' :: (s.map jsonEscapeChar).flatten ++ ['"']

/-- `json.dumps({"target": uri})` (line 127 of `auth_handler.py`). -/
def jsonDumpsTargetObj (uri : Str) : Str :=
  "\x7b\"target\": ".toList ++ jsonDumpsStr uri ++ ['}']

/-! ## UTF-8 and base64 -/

/-- UTF-8 encoding of one scalar value (`str.encode("utf-8")` per char). -/
def utf8EncodeChar (c : Char) : List Nat :=
  let n := c.toNat
  if n < 0x80 then [n]
  else if n < 0x800 then [0xC0 + n / 0x40, 0x80 + n % 0x40]
  else if n < 0x10000 then
    [0xE0 + n / 0x1000, 0x80 + n / 0x40 % 0x40, 0x80 + n % 0x40]
  else
    [0xF0 + n / 0x40000, 0x80 + n / 0x1000 % 0x40, 0x80 + n / 0x40 % 0x40, 0x80 + n % 0x40]

/-- Decode one UTF-8 scalar from the front of a byte list, rejecting
stray continuation bytes, overlong forms, surrogates, and values above
`0x10FFFF`, as CPython's strict decoder does. -/
def utf8DecodeOne : List Nat → Option (Nat × List Nat)
  | [] => none
  | b1 :: rest =>
    if b1 < 0x80 then some (b1, rest)
    else if b1 < 0xC2 then none
    else if b1 < 0xE0 then
      match rest with
      | b2 :: rest2 =>
        if 0x80 ≤ b2 ∧ b2 < 0xC0 then
          some ((b1 - 0xC0) * 0x40 + (b2 - 0x80), rest2)
        else none
      | [] => none
    else if b1 < 0xF0 then
      match rest with
      | b2 :: b3 :: rest3 =>
        if (0x80 ≤ b2 ∧ b2 < 0xC0) ∧ (0x80 ≤ b3 ∧ b3 < 0xC0) ∧
            (b1 = 0xE0 → 0xA0 ≤ b2) ∧ (b1 = 0xED → b2 < 0xA0) then
          some ((b1 - 0xE0) * 0x1000 + (b2 - 0x80) * 0x40 + (b3 - 0x80), rest3)
        else none
      | _ => none
    else if b1 < 0xF5 then
      match rest with
      | b2 :: b3 :: b4 :: rest4 =>
        if (0x80 ≤ b2 ∧ b2 < 0xC0) ∧ (0x80 ≤ b3 ∧ b3 < 0xC0) ∧ (0x80 ≤ b4 ∧ b4 < 0xC0) ∧
            (b1 = 0xF0 → 0x90 ≤ b2) ∧ (b1 = 0xF4 → b2 < 0x90) then
          some ((b1 - 0xF0) * 0x40000 + (b2 - 0x80) * 0x1000 +
            (b3 - 0x80) * 0x40 + (b4 - 0x80), rest4)
        else none
      | _ => none
    else none

/-- Iterate `utf8DecodeOne`; each step consumes at least one byte, so
fuel equal to the byte count always suffices. -/
def utf8DecodeLoop : Nat → List Nat → Option Str
  | _, [] => some []
  | 0, _ :: _ => none
  | fuel + 1, b :: bs =>
    match utf8DecodeOne (b :: bs) with
    | none => none
    | some (n, rest) => (utf8DecodeLoop fuel rest).map (Char.ofNat n :: ·)

/-- Strict UTF-8 decoding (`bytes.decode("utf-8")`). -/
def utf8Decode (bs : List Nat) : Option Str := utf8DecodeLoop bs.length bs

def b64CharVal (c : Char) : Option Nat :=
  if 'A' ≤ c ∧ c ≤ 'Z' then some (c.toNat - 'A'.toNat)
  else if 'a' ≤ c ∧ c ≤ 'z' then some (c.toNat - 'a'.toNat + 26)
  else if '0' ≤ c ∧ c ≤ '9' then some (c.toNat - '0'.toNat + 52)
  else if c = '+' then some 62
  else if c = '/' then some 63
  else none

/-- CPython's non-strict `binascii.a2b_base64`, one input character at a
time: `quadPos` counts the data characters of the current quad (a byte
is emitted as each of the second, third and fourth arrive, `leftchar`
holding the pending bits); characters outside the alphabet are
discarded; a padding `=` is ignored while fewer than two quad characters
have arrived, and otherwise ends the data once the quad is completed by
padding (`quadPos + pads ≥ 4`, the remainder being ignored); at the end
of input a partial quad is an error. -/
def a2bBase64 : Str → Nat → Nat → Nat → Option (List Nat)
  | [], quadPos, _, _ => if quadPos = 0 then some [] else none
  | c :: rest, quadPos, leftchar, pads =>
    if c = '=' then
      if 2 ≤ quadPos then
        if 4 ≤ quadPos + (pads + 1) then some []
        else a2bBase64 rest quadPos leftchar (pads + 1)
      else a2bBase64 rest quadPos leftchar pads
    else
      match b64CharVal c with
      | none => a2bBase64 rest quadPos leftchar pads
      | some v =>
        match quadPos with
        | 0 => a2bBase64 rest 1 v 0
        | 1 => (a2bBase64 rest 2 (v % 16) 0).map ((leftchar * 4 + v / 16) :: ·)
        | 2 => (a2bBase64 rest 3 (v % 4) 0).map ((leftchar * 16 + v / 4) :: ·)
        | _ => (a2bBase64 rest 0 0 0).map ((leftchar * 64 + v) :: ·)

/-- `base64.urlsafe_b64decode` on a `str`: ASCII-encode (a non-ASCII
character raises, caught by the caller), translate `-`/`_` to `+`/`/`,
then decode with the non-strict `binascii.a2b_base64`. -/
def urlsafe_b64decode (s : Str) : Option (List Nat) :=
  if s.any (fun c => 0x80 ≤ c.toNat) then none
  else
    a2bBase64 (s.map fun c => if c = '-' then '+' else if c = '_' then '/' else c) 0 0 0

/-! ## `urllib.parse.quote` / `unquote` -/

def hexUpper (n : Nat) : Char :=
  if n < 10 then Char.ofNat ('0'.toNat + n) else Char.ofNat ('A'.toNat + (n - 10))

/-- The characters `urllib.parse.quote` never encodes (with `safe=""`):
ASCII letters, digits, and `_.-~`. -/
def isAlwaysSafe (c : Char) : Bool :=
  ('A' ≤ c && c ≤ 'Z') || ('a' ≤ c && c ≤ 'z') || ('0' ≤ c && c ≤ '9') ||
    c = '_' || c = '.' || c = '-' || c = '~'

def pctEncodeByte (b : Nat) : Str := ['%', hexUpper (b / 16), hexUpper (b % 16)]

/-- `urllib.parse.quote(s, safe="")`: UTF-8 encode and percent-encode
every byte except the always-safe characters. -/
def pyQuote (s : Str) : Str :=
  (s.map fun c =>
    if isAlwaysSafe c then [c] else ((utf8EncodeChar c).map pctEncodeByte).flatten).flatten

/-- Byte sequence produced by `urllib.parse.unquote`: each `%XX` with two
hex digits becomes one byte, everything else contributes its UTF-8 bytes
(a `%` not followed by two hex digits stays literal). -/
def pyUnquoteBytes : Str → List Nat
  | [] => []
  | '%' :: h1 :: h2 :: rest =>
    match hexVal h1, hexVal h2 with
    | some a, some b => (a * 16 + b) :: pyUnquoteBytes rest
    | _, _ => utf8EncodeChar '%' ++ pyUnquoteBytes (h1 :: h2 :: rest)
  | c :: rest => utf8EncodeChar c ++ pyUnquoteBytes rest

/-- `urllib.parse.unquote`.  CPython never fails (undecodable bytes
become U+FFFD via `errors="replace"`); the replacement case is modelled
as `none`, and never arises on the gate's own outputs. -/
def pyUnquote (s : Str) : Option Str := utf8Decode (pyUnquoteBytes s)

/-! ## `auth_handler.py` -/

/-- `parse_jwt_payload` (lines 36-57): split on `.`, require exactly
three segments, pad the middle segment with `"=" * (-len % 4)`, then
URL-safe base64 decode, UTF-8 decode and `json.loads`; any failure is
swallowed and returns `None`.  The decoded JSON value is returned as is
(its type is not checked here). -/
def parse_jwt_payload (token : Str) : Option PyJson :=
  let parts := splitOnChar '.' token
  if parts.length ≠ 3 then none
  else
    let payload := (parts.get? 1).getD []
    let padded := payload ++ List.replicate ((4 - payload.length % 4) % 4) '='
    match urlsafe_b64decode padded with
    | none => none
    | some bytes =>
      match utf8Decode bytes with
      | none => none
      | some text => jsonLoads text

/-- The issuer the gate expects:
`f"https://cognito-idp.{COGNITO_REGION}.amazonaws.com/{USER_POOL_ID}"`. -/
def expected_issuer : Str :=
  "https://".toList ++ "cognito-idp.".toList ++ COGNITO_REGION ++
    ".amazonaws.com/".toList ++ USER_POOL_ID

/-- `is_jwt_valid` (lines 60-96) over the decoded JSON value `payload`
and the current time `now` (`time.time()`, in seconds since epoch).
`payload.get(...)` on a non-dict raises `AttributeError`, which the
function's own `except` turns into `False`; `not exp` is Python
truthiness (`None`/`0`/`0.0` falsy); an `int` or `float` `exp` is
compared exactly against the current time (every comparison against
`NaN` is false, so a `NaN` `exp` passes the expiry test); a non-numeric
`exp` makes `exp < time.time()` raise, again giving `False`; `!=`
against the expected strings is `False` only for equal strings. -/
def is_jwt_valid (now : Int) (payload : PyJson) : Bool :=
  match payload with
  | .obj kvs =>
    (match dictGet kvs "exp".toList with
     | some (.num e) => !(e == 0) && !(e < now)
     | some (.float f) => ! f.falsy && ! (f.ltInt now)
     | _ => false) &&
    (match dictGet kvs "iss".toList with
     | some (.str s) => s == expected_issuer
     | _ => false) &&
    (match dictGet kvs "aud".toList with
     | some (.str s) => s == COGNITO_CLIENT_ID
     | _ => false) &&
    (match dictGet kvs "token_use".toList with
     | some (.str s) => s == "id".toList
     | _ => false)
  | _ => false

/-- `extract_token_from_cookie` (lines 99-120): split the cookie header
on `;`, keep entries containing `=`, strip and split each at the first
`=` (later duplicates overwrite), then return the first of the three
candidate cookie names that is present. -/
def extract_token_from_cookie (cookie_header : Str) : Option Str :=
  let cookies := (splitOnChar ';' cookie_header).foldl
    (fun (d : List (Str × Str)) cookie =>
      if strContains ['='] cookie then
        let stripped := pyStrip cookie
        let key := stripped.takeWhile (· ≠ '=')
        let value := (stripped.dropWhile (· ≠ '=')).drop 1
        dictSet d key value
      else d) []
  let candidates : List Str :=
    ["CognitoIdentityServiceProvider.".toList ++ COGNITO_CLIENT_ID ++
       ".LastAuthUser.idToken".toList,
     "amplify-signin-with-hostedui".toList,
     "id_token".toList]
  candidates.findSome? fun k => dictGet cookies k

/-- One element of a CloudFront header value list: a Python dict that
normally carries `"key"` and `"value"` entries, either possibly absent. -/
structure HeaderEntry where
  key : Option Str
  value : Option Str
deriving DecidableEq

/-- A CloudFront header map: header-name → list of entries. -/
abbrev Headers := List (Str × List HeaderEntry)

/-- The 302 response dict built by `create_login_redirect`. -/
structure RedirectResponse where
  status : Str
  statusDescription : Str
  headers : Headers
deriving DecidableEq

/-- `create_login_redirect` (lines 123-146). -/
def create_login_redirect (original_uri : Str) (host : Str) : RedirectResponse :=
  let encoded_redirect_uri := pyQuote ("https://".toList ++ host ++ ['/'])
  let state_param := pyQuote (jsonDumpsTargetObj original_uri)
  let login_url :=
    "https://".toList ++ COGNITO_DOMAIN ++ "/login?".toList ++
    "client_id=".toList ++ COGNITO_CLIENT_ID ++ ['&'] ++
    "response_type=code&".toList ++
    "scope=email+openid+profile&".toList ++
    "redirect_uri=".toList ++ encoded_redirect_uri ++ ['&'] ++
    "state=".toList ++ state_param
  { status := "302".toList
    statusDescription := "Found".toList
    headers :=
      [("location".toList, [⟨some "Location".toList, some login_url⟩]),
       ("cache-control".toList,
         [⟨some "Cache-Control".toList,
           some "no-cache, no-store, must-revalidate".toList⟩])] }

/-- The CloudFront request dict.  Fields accessed with `.get` defaults
or direct indexing in the source are `Option`s here so that the fallible
accesses (`request["uri"]`, `request["headers"]`) can be modelled. -/
structure CFRequest where
  uri : Option Str
  querystring : Option Str
  headers : Option Headers
deriving DecidableEq

/-- The Lambda@Edge event.  `request = none` models any event on which
the chain `event["Records"][0]["cf"]["request"]` raises (missing or
empty `Records`, missing `cf` or `request` keys). -/
structure Event where
  request : Option CFRequest
deriving DecidableEq

/-- What the handler returns to the edge runtime: the (aliased, possibly
mutated) request dict, or the 302 response dict. -/
inductive Decision where
  | request (r : CFRequest) : Decision
  | response (r : RedirectResponse) : Decision
deriving DecidableEq

/-- Python `if not token` on `Optional[str]`: `None` and `""` are falsy. -/
def tokenFalsy : Option Str → Bool
  | none => true
  | some s => s.isEmpty

/-- Lines 175-178: `token = None; if "cookie" in headers: token =
extract_token_from_cookie(headers["cookie"][0]["value"])`.  An empty
entry list or an entry without `"value"` raises (`.error`). -/
def cookie_token (headers : Headers) : Except Unit (Option Str) :=
  match dictGet headers "cookie".toList with
  | none => .ok none
  | some [] => .error ()
  | some (e :: _) =>
    match e.value with
    | none => .error ()
    | some cv => .ok (extract_token_from_cookie cv)

/-- `headers.get("host", [{}])[0].get("value", "")` (lines 183, 190):
an absent header yields `""` via the defaults; a present header with an
empty entry list raises IndexError. -/
def host_value (headers : Headers) : Except Unit Str :=
  match dictGet headers "host".toList with
  | none => .ok []
  | some [] => .error ()
  | some (e :: _) => .ok (e.value.getD [])

/-- Lines 198-199: add the two authentication marker headers. -/
def authenticated_headers (h : Headers) (email : Str) : Headers :=
  dictSet
    (dictSet h "x-authenticated-user".toList
      [⟨some "X-Authenticated-User".toList, some email⟩])
    "x-lambda-edge".toList
    [⟨some "X-Lambda-Edge".toList, some "authenticated".toList⟩]

/-- `payload.get("email", "unknown")` (line 194).  A non-string `email`
claim would be stored as-is by Python; its value is a modelling artifact
here (`[]`), and no theorem depends on it. -/
def email_value (kvs : List (Str × PyJson)) : Str :=
  match dictGet kvs "email".toList with
  | some (.str s) => s
  | some _ => []
  | none => "unknown".toList

/-- The body of the handler's `try` block (lines 156-213), with the
caller-visible mutations of the request dict made explicit: the returned
`Event` is the state of the caller's event structure when the handler
returns (Python mutates `request` in place and returns the same object). -/
def handler_try (now : Int) (event : Event) : Except Unit (Decision × Event) :=
  match event.request with
  | none => .error ()
  | some request =>
    match request.uri with
    | none => .error ()
    | some uri =>
      let headers := request.headers.getD []
      let querystring := request.querystring.getD []
      if uri = "/".toList ∧ strContains "code=".toList querystring then
        let r := { request with uri := some "/index.html".toList }
        .ok (.request r, ⟨some r⟩)
      else if is_protected_route uri then
        match cookie_token headers with
        | .error _ => .error ()
        | .ok tokenOpt =>
          if tokenFalsy tokenOpt then
            match host_value headers with
            | .error _ => .error ()
            | .ok host => .ok (.response (create_login_redirect uri host), ⟨some request⟩)
          else
            match parse_jwt_payload (tokenOpt.getD []) with
            | none =>
              match host_value headers with
              | .error _ => .error ()
              | .ok host => .ok (.response (create_login_redirect uri host), ⟨some request⟩)
            | some payload =>
              if pyFalsy payload || !(is_jwt_valid now payload) then
                match host_value headers with
                | .error _ => .error ()
                | .ok host => .ok (.response (create_login_redirect uri host), ⟨some request⟩)
              else
                match request.headers with
                | none => .error ()
                | some h =>
                  let email :=
                    match payload with
                    | .obj kvs => email_value kvs
                    | _ => []
                  let r := { request with
                              uri := some "/index.html".toList
                              headers := some (authenticated_headers h email) }
                  .ok (.request r, ⟨some r⟩)
      else
        if uri ≠ "/".toList ∧ ¬ strContains ['.'] ((splitOnChar '/' uri).getLastD []) then
          let r := { request with uri := some "/index.html".toList }
          .ok (.request r, ⟨some r⟩)
        else
          .ok (.request request, ⟨some request⟩)

/-- `handler` (lines 149-217): the `try` body, with the blanket `except`
returning `event["Records"][0]["cf"]["request"]` — which re-raises
(`.error`) when the request itself cannot be extracted.  `now` is the
value of `time.time()` during the call. -/
def handler (now : Int) (event : Event) : Except Unit (Decision × Event) :=
  match handler_try now event with
  | .ok r => .ok r
  | .error _ =>
    match event.request with
    | some req => .ok (.request req, event)
    | none => .error ()

/-! ## Observation helpers used by the claim statements -/

/-- Everything after the first occurrence of `c`, if any. -/
def afterChar (c : Char) : Str → Option Str
  | [] => none
  | x :: xs => if x = c then some xs else afterChar c xs

/-- The value of query parameter `name` in a query string: the first
`&`-separated field of the form `name=value`. -/
def queryParamValue (name qs : Str) : Option Str :=
  (splitOnChar '&' qs).findSome? fun p =>
    if (name ++ ['=']).isPrefixOf p then some (p.drop (name.length + 1)) else none

/-- The value of query parameter `name` of a URL: look after the first `?`. -/
def urlQueryParam (name url : Str) : Option Str :=
  (afterChar '?' url).bind (queryParamValue name)

/-- Outcome of the authentication check in the protected branch (lines
181-191 collapsed): `true` iff a truthy token was extracted, its payload
parsed, and the payload is truthy and valid. -/
def auth_ok (now : Int) (tokenOpt : Option Str) : Bool :=
  if tokenFalsy tokenOpt then false
  else
    match parse_jwt_payload (tokenOpt.getD []) with
    | none => false
    | some payload => !(pyFalsy payload) && is_jwt_valid now payload

/-- The request after the plain SPA/OAuth rewrite `request["uri"] =
"/index.html"`. -/
def rewritten_request (req : CFRequest) : CFRequest :=
  { req with uri := some "/index.html".toList }

/-- The request after the authenticated rewrite: path forced to
`/index.html` and the two marker headers added. -/
def rewritten_auth_request (req : CFRequest) (h0 : Headers) (email : Str) : CFRequest :=
  { req with uri := some "/index.html".toList
             headers := some (authenticated_headers h0 email) }

/-! ## Concrete inputs used by witnesses and counterexamples -/

def reqC1 : CFRequest := ⟨some "/".toList, none, none⟩
def evC1 : Event := ⟨some reqC1⟩

def reqC2 : CFRequest := ⟨some "/contact".toList, some [], some []⟩
def evC2 : Event := ⟨some reqC2⟩

def reqC5 : CFRequest :=
  ⟨some "/".toList, some "code=abc123".toList,
   some [("cookie".toList, [⟨some "cookie".toList, some "id_token=zzz".toList⟩])]⟩
def evC5 : Event := ⟨some reqC5⟩

def reqC6 : CFRequest := ⟨some "/some/nested/route".toList, some [], some []⟩
def evC6 : Event := ⟨some reqC6⟩

def reqC8 : CFRequest :=
  ⟨some "/admin".toList, some [],
   some [("host".toList, [⟨some "host".toList, some "example.com".toList⟩]),
         ("cookie".toList, [⟨some "cookie".toList, some "id_token=abc".toList⟩])]⟩
def evC8 : Event := ⟨some reqC8⟩

def reqC9 : CFRequest :=
  ⟨some "/admin/report.pdf".toList, some [],
   some [("host".toList, [⟨some "host".toList, some "example.com".toList⟩])]⟩
def evC9 : Event := ⟨some reqC9⟩

def reqC10 : CFRequest := ⟨some "/".toList, some "error_code=5".toList, some []⟩
def evC10 : Event := ⟨some reqC10⟩
def reqC10b : CFRequest := ⟨some "/".toList, some "decode=1".toList, some []⟩
def evC10b : Event := ⟨some reqC10b⟩

/-- `u` matches route `r`: equals it, or continues it after a `/`. -/
def protoMatch (r u : Str) : Prop := u = r ∨ (r ++ ['/']) <+: u

/-! ## Lemmas: route matching is insensitive to trailing slashes -/

lemma protoMatch_snoc (r w : Str) (hr : r.getLast? ≠ some '/') :
    protoMatch r (w ++ ['/']) ↔ protoMatch r w := by
  unfold protoMatch
  constructor
  · rintro (h | h)
    · exact absurd (h ▸ List.getLast?_concat w) hr
    · rcases List.prefix_concat_iff.mp h with h | h
      · left; exact (List.append_left_injective _ h).symm ▸ rfl
      · right; exact h
  · rintro (h | h)
    · right; rw [h]
    · right; exact h.trans (List.prefix_append _ _)

lemma protoMatch_dropSlashRev (r : Str) (hr : r.getLast? ≠ some '/') :
    ∀ v : Str, protoMatch r ((v.dropWhile (· = '/')).reverse) ↔ protoMatch r v.reverse := by
  intro v
  induction v with
  | nil => exact Iff.rfl
  | cons c v' ih =>
    by_cases hc : c = '/'
    · subst hc
      rw [List.dropWhile_cons_of_pos (by simp), List.reverse_cons]
      exact ih.trans (protoMatch_snoc r v'.reverse hr).symm
    · rw [List.dropWhile_cons_of_neg (by simp [hc])]

lemma protoMatch_rstrip (r u : Str) (hr : r.getLast? ≠ some '/') :
    protoMatch r (pyRstripSlash u) ↔ protoMatch r u := by
  have := protoMatch_dropSlashRev r hr u.reverse
  rwa [List.reverse_reverse] at this

lemma protoMatch_stripOne (r u : Str) (hr : r.getLast? ≠ some '/') :
    protoMatch r (stripOneTrailingSlash u) ↔ protoMatch r u := by
  unfold stripOneTrailingSlash
  split
  · rename_i h
    conv_rhs => rw [← List.dropLast_append_getLast? '/' h]
    exact (protoMatch_snoc r u.dropLast hr).symm
  · exact Iff.rfl

lemma protected_iff_protoMatch (u : Str) :
    is_protected_route u = true ↔ ∃ r ∈ PROTECTED_ROUTES, protoMatch r (pyRstripSlash u) := by
  unfold is_protected_route
  rw [List.any_eq_true]
  refine exists_congr fun r => and_congr_right fun _ => ?_
  simp [protoMatch, List.isPrefixOf_iff_prefix]

lemma routes_no_trailing_slash : ∀ r ∈ PROTECTED_ROUTES, r.getLast? ≠ some '/' := by decide

/-- C3: `is_protected_route` classifies `p` as protected iff, after
stripping a single trailing slash, `p` exactly equals one of the
configured prefixes or starts with that prefix followed by `/`; matching
is case-sensitive and exact-segment (`/adminpanel` and `/Admin` are not
protected, `/admin` and `/admin/...` are). -/
theorem C3_protected_route_classification :
    (∀ p : Str, is_protected_route p = true ↔
       ∃ r ∈ PROTECTED_ROUTES,
         stripOneTrailingSlash p = r ∨ (r ++ ['/']) <+: stripOneTrailingSlash p) ∧
    is_protected_route "/adminpanel".toList = false ∧
    is_protected_route "/Admin".toList = false ∧
    is_protected_route "/admin".toList = true ∧
    is_protected_route "/admin/users".toList = true ∧
    is_protected_route "/admin/".toList = true := by
  refine ⟨fun p => ?_, by decide, by decide, by decide, by decide, by decide⟩
  rw [protected_iff_protoMatch]
  exact ⟨fun ⟨r, hr, hm⟩ => ⟨r, hr,
      (protoMatch_stripOne r p (routes_no_trailing_slash r hr)).mpr
        ((protoMatch_rstrip r p (routes_no_trailing_slash r hr)).mp hm)⟩,
    fun ⟨r, hr, hm⟩ => ⟨r, hr,
      (protoMatch_rstrip r p (routes_no_trailing_slash r hr)).mpr
        ((protoMatch_stripOne r p (routes_no_trailing_slash r hr)).mp hm)⟩⟩

/-- C4 counterexample: the claim requires any payload whose `exp` is not
strictly greater than the current time to be rejected, including `exp`
exactly equal to the current time; but at `now = 1000` the code accepts
a payload with `exp = 1000` (line 70 tests `exp < time.time()`, so the
boundary case passes). -/
theorem C4_exp_equal_now_counterexample :
    is_jwt_valid 1000 (.obj [("exp".toList, .num 1000),
      ("iss".toList, .str expected_issuer),
      ("aud".toList, .str COGNITO_CLIENT_ID),
      ("token_use".toList, .str "id".toList)]) = true := by decide

/-- C4 (amended): `is_jwt_valid` accepts exactly the payloads that are
JSON objects whose `exp` is a nonzero number not LESS than the current
time (`exp` exactly equal to the current time is still accepted; only a
strictly past `exp`, a zero/absent/non-numeric `exp`, is rejected), and
whose `iss`, `aud` and `token_use` equal the configured issuer URL, the
configured client id, and the literal string `"id"` respectively.
Numbers include floats: a nonzero float `exp` not below the current time
is accepted, and because the code only rejects on `exp < time.time()`, a
`NaN` or `+Infinity` `exp` (every comparison against `NaN` is false) is
accepted as well, while `-Infinity`, `0.0` and past floats are
rejected. -/
theorem C4_jwt_validity_amended (now : Int) (p : PyJson) :
    is_jwt_valid now p = true ↔
      ∃ kvs, p = .obj kvs ∧
        ((∃ e : Int, dictGet kvs "exp".toList = some (.num e) ∧ e ≠ 0 ∧ now ≤ e) ∨
         (∃ f, dictGet kvs "exp".toList = some (.float f) ∧
            (f = .nan ∨ f = .inf false ∨
             ∃ q : ℚ, f = .finite q ∧ q ≠ 0 ∧ (now : ℚ) ≤ q))) ∧
        dictGet kvs "iss".toList = some (.str expected_issuer) ∧
        dictGet kvs "aud".toList = some (.str COGNITO_CLIENT_ID) ∧
        dictGet kvs "token_use".toList = some (.str "id".toList) := by
  constructor
  · intro h
    cases p with
    | obj kvs =>
      refine ⟨kvs, rfl, ?_⟩
      simp only [is_jwt_valid, Bool.and_eq_true] at h
      obtain ⟨⟨⟨h1, h2⟩, h3⟩, h4⟩ := h
      refine ⟨?_, ?_, ?_, ?_⟩
      · split at h1
        · rename_i e heq
          simp only [Bool.and_eq_true, Bool.not_eq_true', beq_eq_false_iff_ne, ne_eq,
            decide_eq_false_iff_not, not_lt] at h1
          exact Or.inl ⟨e, heq, h1.1, h1.2⟩
        · rename_i f heq
          rw [Bool.and_eq_true] at h1
          refine Or.inr ⟨f, heq, ?_⟩
          cases f with
          | nan => exact Or.inl rfl
          | inf neg =>
            have hneg : neg = false := by
              simpa [PyFloat.ltInt] using h1.2
            exact Or.inr (Or.inl (by rw [hneg]))
          | finite q =>
            refine Or.inr (Or.inr ⟨q, rfl, ?_, ?_⟩)
            · simpa [PyFloat.falsy] using h1.1
            · have h12 := h1.2
              simp [PyFloat.ltInt, not_lt] at h12
              exact h12
        · exact absurd h1 (by simp)
      · split at h2
        · rename_i s heq
          rw [beq_iff_eq] at h2; exact h2 ▸ heq
        · exact absurd h2 (by simp)
      · split at h3
        · rename_i s heq
          rw [beq_iff_eq] at h3; exact h3 ▸ heq
        · exact absurd h3 (by simp)
      · split at h4
        · rename_i s heq
          rw [beq_iff_eq] at h4; exact h4 ▸ heq
        · exact absurd h4 (by simp)
    | null => simp [is_jwt_valid] at h
    | bool b => simp [is_jwt_valid] at h
    | num n => simp [is_jwt_valid] at h
    | float f => simp [is_jwt_valid] at h
    | str s => simp [is_jwt_valid] at h
    | ustr u => simp [is_jwt_valid] at h
    | arr xs => simp [is_jwt_valid] at h
  · rintro ⟨kvs, rfl, hexp, hiss, haud, htu⟩
    simp at hiss haud htu
    rcases hexp with ⟨e, he, he0, hnow⟩ | ⟨f, hf, hcase⟩
    · simp at he
      simp [is_jwt_valid, he, hiss, haud, htu, he0, not_lt.mpr hnow]
    · simp at hf
      rcases hcase with rfl | rfl | ⟨q, rfl, hq0, hle⟩
      · simp [is_jwt_valid, hf, hiss, haud, htu, PyFloat.falsy, PyFloat.ltInt]
      · simp [is_jwt_valid, hf, hiss, haud, htu, PyFloat.falsy, PyFloat.ltInt]
      · simp [is_jwt_valid, hf, hiss, haud, htu, PyFloat.falsy, PyFloat.ltInt, hq0,
          not_lt.mpr hle]

/-! ## Lemmas: reduction of the handler along each branch -/

lemma root_not_protected : is_protected_route "/".toList = false := by decide

lemma handler_try_oauth (now : Int) (req : CFRequest)
    (huri : req.uri = some "/".toList)
    (hcode : strContains "code=".toList (req.querystring.getD []) = true) :
    handler_try now ⟨some req⟩ =
      .ok (.request (rewritten_request req), ⟨some (rewritten_request req)⟩) := by
  unfold handler_try
  simp only [huri]
  rw [if_pos ⟨trivial, hcode⟩]
  rfl

lemma handler_try_protected_redirect (now : Int) (req : CFRequest) (uri : Str)
    (tokOpt : Option Str) (host : Str)
    (huri : req.uri = some uri) (hprot : is_protected_route uri = true)
    (hck : cookie_token (req.headers.getD []) = .ok tokOpt)
    (hauth : auth_ok now tokOpt = false)
    (hhost : host_value (req.headers.getD []) = .ok host) :
    handler_try now ⟨some req⟩ =
      .ok (.response (create_login_redirect uri host), ⟨some req⟩) := by
  unfold handler_try
  simp only [huri]
  rw [if_neg (fun hand => by
    rw [hand.1, root_not_protected] at hprot; exact Bool.false_ne_true hprot)]
  rw [if_pos hprot]
  simp only [hck]
  unfold auth_ok at hauth
  by_cases htf : tokenFalsy tokOpt = true
  · rw [if_pos htf]
    simp only [hhost]
  · rw [Bool.not_eq_true] at htf
    rw [if_neg (by rw [htf]; exact Bool.false_ne_true)]
    rw [if_neg (by rw [htf]; exact Bool.false_ne_true)] at hauth
    cases hp : parse_jwt_payload (tokOpt.getD []) with
    | none => simp only [hp, hhost]
    | some payload =>
      simp only [hp] at hauth
      simp only [hp]
      have hcond : (pyFalsy payload || !(is_jwt_valid now payload)) = true := by
        cases hpf : pyFalsy payload <;> cases hv : is_jwt_valid now payload <;> simp_all
      rw [if_pos hcond]
      simp only [hhost]

lemma handler_try_protected_rewrite (now : Int) (req : CFRequest) (uri : Str)
    (tokOpt : Option Str) (kvs : List (Str × PyJson))
    (huri : req.uri = some uri) (hprot : is_protected_route uri = true)
    (hck : cookie_token (req.headers.getD []) = .ok tokOpt)
    (htf : tokenFalsy tokOpt = false)
    (hp : parse_jwt_payload (tokOpt.getD []) = some (.obj kvs))
    (hpf : pyFalsy (.obj kvs) = false)
    (hval : is_jwt_valid now (.obj kvs) = true) :
    ∃ h0, req.headers = some h0 ∧
      handler_try now ⟨some req⟩ =
        .ok (.request (rewritten_auth_request req h0 (email_value kvs)),
             ⟨some (rewritten_auth_request req h0 (email_value kvs))⟩) := by
  cases hh : req.headers with
  | none =>
    exfalso
    rw [hh] at hck
    simp only [Option.getD_none, cookie_token, dictGet] at hck
    cases hck
    simp [tokenFalsy] at htf
  | some h0 =>
    refine ⟨h0, rfl, ?_⟩
    unfold handler_try
    simp only [huri]
    rw [if_neg (fun hand => by
      rw [hand.1, root_not_protected] at hprot; exact Bool.false_ne_true hprot)]
    rw [if_pos hprot]
    simp only [hck]
    rw [if_neg (by rw [htf]; exact Bool.false_ne_true)]
    simp only [hp]
    rw [if_neg (by rw [hpf, hval]; simp)]
    simp only [hh]
    rfl

lemma handler_try_spa_rewrite (now : Int) (req : CFRequest) (uri : Str)
    (huri : req.uri = some uri)
    (hoauth : ¬(uri = "/".toList ∧ strContains "code=".toList (req.querystring.getD []) = true))
    (hprot : is_protected_route uri = false)
    (hroot : uri ≠ "/".toList)
    (hdot : strContains ['.'] ((splitOnChar '/' uri).getLastD []) = false) :
    handler_try now ⟨some req⟩ =
      .ok (.request (rewritten_request req), ⟨some (rewritten_request req)⟩) := by
  unfold handler_try
  simp only [huri]
  rw [if_neg hoauth]
  rw [if_neg (by rw [hprot]; exact Bool.false_ne_true)]
  rw [if_pos ⟨hroot, by rw [hdot]; exact Bool.false_ne_true⟩]
  rfl

lemma handler_try_passthrough (now : Int) (req : CFRequest) (uri : Str)
    (huri : req.uri = some uri)
    (hoauth : ¬(uri = "/".toList ∧ strContains "code=".toList (req.querystring.getD []) = true))
    (hprot : is_protected_route uri = false)
    (hrd : uri = "/".toList ∨ strContains ['.'] ((splitOnChar '/' uri).getLastD []) = true) :
    handler_try now ⟨some req⟩ = .ok (.request req, ⟨some req⟩) := by
  unfold handler_try
  simp only [huri]
  rw [if_neg hoauth]
  rw [if_neg (by rw [hprot]; exact Bool.false_ne_true)]
  rw [if_neg (by
    rintro ⟨h1, h2⟩
    rcases hrd with h | h
    · exact h1 h
    · exact h2 h)]

lemma handler_try_uri_none (now : Int) (req : CFRequest) (huri : req.uri = none) :
    handler_try now ⟨some req⟩ = .error () := by
  unfold handler_try
  simp only [huri]

lemma handler_try_cookie_error (now : Int) (req : CFRequest) (uri : Str)
    (huri : req.uri = some uri) (hprot : is_protected_route uri = true)
    (hck : cookie_token (req.headers.getD []) = .error ()) :
    handler_try now ⟨some req⟩ = .error () := by
  unfold handler_try
  simp only [huri]
  rw [if_neg (fun hand => by
    rw [hand.1, root_not_protected] at hprot; exact Bool.false_ne_true hprot)]
  rw [if_pos hprot]
  simp only [hck]

lemma handler_try_host_error (now : Int) (req : CFRequest) (uri : Str)
    (tokOpt : Option Str)
    (huri : req.uri = some uri) (hprot : is_protected_route uri = true)
    (hck : cookie_token (req.headers.getD []) = .ok tokOpt)
    (hauth : auth_ok now tokOpt = false)
    (hhost : host_value (req.headers.getD []) = .error ()) :
    handler_try now ⟨some req⟩ = .error () := by
  unfold handler_try
  simp only [huri]
  rw [if_neg (fun hand => by
    rw [hand.1, root_not_protected] at hprot; exact Bool.false_ne_true hprot)]
  rw [if_pos hprot]
  simp only [hck]
  unfold auth_ok at hauth
  by_cases htf : tokenFalsy tokOpt = true
  · rw [if_pos htf]
    simp only [hhost]
  · rw [Bool.not_eq_true] at htf
    rw [if_neg (by rw [htf]; exact Bool.false_ne_true)]
    rw [if_neg (by rw [htf]; exact Bool.false_ne_true)] at hauth
    cases hp : parse_jwt_payload (tokOpt.getD []) with
    | none => simp only [hp, hhost]
    | some payload =>
      simp only [hp] at hauth
      simp only [hp]
      have hcond : (pyFalsy payload || !(is_jwt_valid now payload)) = true := by
        cases hpf : pyFalsy payload <;> cases hv : is_jwt_valid now payload <;> simp_all
      rw [if_pos hcond]
      simp only [hhost]

lemma jwt_valid_obj {now : Int} {p : PyJson} (h : is_jwt_valid now p = true) :
    ∃ kvs, p = .obj kvs := by
  cases p <;> first | exact ⟨_, rfl⟩ | simp [is_jwt_valid] at h

lemma auth_ok_true_elim {now : Int} {tokOpt : Option Str}
    (h : auth_ok now tokOpt = true) :
    ∃ kvs, tokenFalsy tokOpt = false ∧
      parse_jwt_payload (tokOpt.getD []) = some (.obj kvs) ∧
      pyFalsy (.obj kvs) = false ∧ is_jwt_valid now (.obj kvs) = true := by
  unfold auth_ok at h
  by_cases htf : tokenFalsy tokOpt = true
  · rw [if_pos htf] at h; exact absurd h (by simp)
  · rw [Bool.not_eq_true] at htf
    rw [if_neg (by rw [htf]; exact Bool.false_ne_true)] at h
    cases hp : parse_jwt_payload (tokOpt.getD []) with
    | none => rw [hp] at h; exact absurd h (by simp)
    | some payload =>
      rw [hp] at h
      rw [Bool.and_eq_true] at h
      obtain ⟨hnf, hv⟩ := h
      obtain ⟨kvs, rfl⟩ := jwt_valid_obj hv
      refine ⟨kvs, htf, rfl, ?_, hv⟩
      simpa using hnf

lemma handler_try_shape (now : Int) (req : CFRequest) :
    handler_try now ⟨some req⟩ = .error () ∨
    (∃ uri host, handler_try now ⟨some req⟩ =
       .ok (.response (create_login_redirect uri host), ⟨some req⟩)) ∨
    handler_try now ⟨some req⟩ = .ok (.request req, ⟨some req⟩) ∨
    handler_try now ⟨some req⟩ =
      .ok (.request (rewritten_request req), ⟨some (rewritten_request req)⟩) ∨
    (∃ h0 em, req.headers = some h0 ∧
       handler_try now ⟨some req⟩ = .ok (.request (rewritten_auth_request req h0 em),
         ⟨some (rewritten_auth_request req h0 em)⟩)) := by
  cases huri : req.uri with
  | none => exact Or.inl (handler_try_uri_none now req huri)
  | some uri =>
    by_cases hoauth : uri = "/".toList ∧ strContains "code=".toList (req.querystring.getD []) = true
    · exact Or.inr (Or.inr (Or.inr (Or.inl
        (handler_try_oauth now req (by rw [huri, hoauth.1]) hoauth.2))))
    · by_cases hprot : is_protected_route uri = true
      · cases hck : cookie_token (req.headers.getD []) with
        | error e =>
          cases e
          exact Or.inl (handler_try_cookie_error now req uri huri hprot hck)
        | ok tokOpt =>
          by_cases hauth : auth_ok now tokOpt = true
          · obtain ⟨kvs, htf, hp, hpf, hv⟩ := auth_ok_true_elim hauth
            obtain ⟨h0, hh0, hres⟩ :=
              handler_try_protected_rewrite now req uri tokOpt kvs huri hprot hck htf hp hpf hv
            exact Or.inr (Or.inr (Or.inr (Or.inr ⟨h0, email_value kvs, hh0, hres⟩)))
          · rw [Bool.not_eq_true] at hauth
            cases hhost : host_value (req.headers.getD []) with
            | error e =>
              cases e
              exact Or.inl (handler_try_host_error now req uri tokOpt huri hprot hck hauth hhost)
            | ok host =>
              exact Or.inr (Or.inl ⟨uri, host,
                handler_try_protected_redirect now req uri tokOpt host huri hprot hck hauth hhost⟩)
      · rw [Bool.not_eq_true] at hprot
        by_cases hrd : uri = "/".toList ∨ strContains ['.'] ((splitOnChar '/' uri).getLastD []) = true
        · exact Or.inr (Or.inr (Or.inl (handler_try_passthrough now req uri huri hoauth hprot hrd)))
        · push_neg at hrd
          exact Or.inr (Or.inr (Or.inr (Or.inl (handler_try_spa_rewrite now req uri huri hoauth
            hprot hrd.1 (Bool.not_eq_true _ ▸ hrd.2)))))

lemma handler_eq_of_try (now : Int) (ev : Event) (r : Decision × Event)
    (h : handler_try now ev = .ok r) : handler now ev = .ok r := by
  unfold handler; rw [h]

lemma handler_fallback (now : Int) (ev : Event) (req : CFRequest)
    (hreq : ev.request = some req)
    (h : handler_try now ev = .error ()) : handler now ev = .ok (.request req, ev) := by
  unfold handler; rw [h, hreq]

/-! ## Claim theorems on the handler -/

/-- C1 counterexample: the claim promises that for EVERY input event an
internal failure degrades to pass-through, but on an event from which
`event["Records"][0]["cf"]["request"]` cannot be extracted, the `except`
block (line 217) performs that same extraction and re-raises, so the
error propagates to the caller. -/
theorem C1_fail_open_counterexample : handler 0 ⟨none⟩ = .error () := rfl

/-- C1 (amended): for every event from which the request CAN be
extracted, the handler never propagates an error, and whenever the try
body fails the handler returns the unmodified original request (the
event state is also unchanged); only when the request itself cannot be
extracted does the error escape. -/
theorem C1_fail_open_amended (now : Int) (ev : Event) (req : CFRequest)
    (hreq : ev.request = some req) :
    (∃ out, handler now ev = .ok out) ∧
    (handler_try now ev = .error () → handler now ev = .ok (.request req, ev)) := by
  constructor
  · cases h : handler_try now ev with
    | error e => cases e; exact ⟨_, handler_fallback now ev req hreq h⟩
    | ok r => exact ⟨r, handler_eq_of_try now ev r h⟩
  · intro h
    exact handler_fallback now ev req hreq h

theorem C1_fail_open_amended_witness :
    evC1.request = some reqC1 ∧
    ((∃ out, handler 0 evC1 = .ok out) ∧
     (handler_try 0 evC1 = .error () → handler 0 evC1 = .ok (.request reqC1, evC1))) :=
  ⟨rfl, C1_fail_open_amended 0 evC1 reqC1 rfl⟩

/-- C2 counterexample: the gate mutates the caller-owned request in
place.  For the unprotected route-like path `/contact`, the handler
returns the same request object with its `uri` overwritten, and the
caller's event structure afterwards differs from the input event —
refuting "the input request object ... is unchanged after the gate
returns". -/
theorem C2_no_mutation_counterexample :
    handler 0 evC2 =
      .ok (.request (rewritten_request reqC2), ⟨some (rewritten_request reqC2)⟩) ∧
    (⟨some (rewritten_request reqC2)⟩ : Event) ≠ evC2 := ⟨rfl, by decide⟩

/-- C2 (amended): the gate returns the caller's own request object,
mutated in place for rewrite outcomes: after the call the caller's
request is either unchanged (pass-through and redirect outcomes),
rewritten to `/index.html`, or rewritten with the two authentication
headers added; a returned request outcome is exactly that final state,
and a redirect outcome leaves the request unchanged. -/
theorem C2_in_place_mutation_amended (now : Int) (ev : Event) (req : CFRequest)
    (d : Decision) (st : Event)
    (hreq : ev.request = some req)
    (h : handler now ev = .ok (d, st)) :
    ∃ req', st = ⟨some req'⟩ ∧
      (d = .request req' ∨ ∃ resp, d = .response resp ∧ req' = req) ∧
      (req' = req ∨ req' = rewritten_request req ∨
       ∃ h0 em, req.headers = some h0 ∧ req' = rewritten_auth_request req h0 em) := by
  obtain ⟨r⟩ := ev
  cases hreq
  rcases handler_try_shape now req with hs | ⟨uri, host, hs⟩ | hs | hs | ⟨h0, em, hh0, hs⟩
  · rw [handler_fallback now ⟨some req⟩ req rfl hs] at h
    obtain ⟨hd, hst⟩ := Prod.mk.inj (Except.ok.inj h)
    exact ⟨req, hst.symm, Or.inl hd.symm, Or.inl rfl⟩
  · rw [handler_eq_of_try now ⟨some req⟩ _ hs] at h
    obtain ⟨hd, hst⟩ := Prod.mk.inj (Except.ok.inj h)
    exact ⟨req, hst.symm, Or.inr ⟨_, hd.symm, rfl⟩, Or.inl rfl⟩
  · rw [handler_eq_of_try now ⟨some req⟩ _ hs] at h
    obtain ⟨hd, hst⟩ := Prod.mk.inj (Except.ok.inj h)
    exact ⟨req, hst.symm, Or.inl hd.symm, Or.inl rfl⟩
  · rw [handler_eq_of_try now ⟨some req⟩ _ hs] at h
    obtain ⟨hd, hst⟩ := Prod.mk.inj (Except.ok.inj h)
    exact ⟨rewritten_request req, hst.symm, Or.inl hd.symm, Or.inr (Or.inl rfl)⟩
  · rw [handler_eq_of_try now ⟨some req⟩ _ hs] at h
    obtain ⟨hd, hst⟩ := Prod.mk.inj (Except.ok.inj h)
    exact ⟨rewritten_auth_request req h0 em, hst.symm, Or.inl hd.symm,
      Or.inr (Or.inr ⟨h0, em, hh0, rfl⟩)⟩

theorem C2_in_place_mutation_amended_witness :
    evC2.request = some reqC2 ∧
    handler 0 evC2 =
      .ok (.request (rewritten_request reqC2), ⟨some (rewritten_request reqC2)⟩) ∧
    (∃ req', (⟨some (rewritten_request reqC2)⟩ : Event) = ⟨some req'⟩ ∧
      (Decision.request (rewritten_request reqC2) = .request req' ∨
       ∃ resp, Decision.request (rewritten_request reqC2) = .response resp ∧ req' = reqC2) ∧
      (req' = reqC2 ∨ req' = rewritten_request reqC2 ∨
       ∃ h0 em, reqC2.headers = some h0 ∧ req' = rewritten_auth_request reqC2 h0 em)) :=
  ⟨rfl, rfl, C2_in_place_mutation_amended 0 evC2 reqC2 _ _ rfl rfl⟩

/-- C5: a request for exactly `/` whose query string contains `code=` is
rewritten to `/index.html` unconditionally — the cookies and their
validity play no role (the request, including its headers, is arbitrary),
and the protected-route check is never consulted. -/
theorem C5_oauth_callback_rewrite (now : Int) (ev : Event) (req : CFRequest)
    (hreq : ev.request = some req) (huri : req.uri = some "/".toList)
    (hcode : strContains "code=".toList (req.querystring.getD []) = true) :
    handler now ev =
      .ok (.request (rewritten_request req), ⟨some (rewritten_request req)⟩) := by
  obtain ⟨r⟩ := ev
  cases hreq
  exact handler_eq_of_try now _ _ (handler_try_oauth now req huri hcode)

theorem C5_oauth_callback_rewrite_witness :
    evC5.request = some reqC5 ∧ reqC5.uri = some "/".toList ∧
    strContains "code=".toList (reqC5.querystring.getD []) = true ∧
    handler 0 evC5 =
      .ok (.request (rewritten_request reqC5), ⟨some (rewritten_request reqC5)⟩) :=
  ⟨rfl, rfl, by decide, C5_oauth_callback_rewrite 0 evC5 reqC5 rfl rfl (by decide)⟩

/-- C6: for a request that is not the OAuth-callback case and is not
protected: if the final path segment contains no dot and the path is not
`/`, the gate rewrites to `/index.html`; otherwise (dotted final segment
or the literal root) it passes the request through unchanged. -/
theorem C6_spa_fallback_or_passthrough (now : Int) (ev : Event) (req : CFRequest) (uri : Str)
    (hreq : ev.request = some req) (huri : req.uri = some uri)
    (hoauth : ¬(uri = "/".toList ∧ strContains "code=".toList (req.querystring.getD []) = true))
    (hprot : is_protected_route uri = false) :
    (uri ≠ "/".toList → strContains ['.'] ((splitOnChar '/' uri).getLastD []) = false →
       handler now ev =
         .ok (.request (rewritten_request req), ⟨some (rewritten_request req)⟩)) ∧
    (uri = "/".toList ∨ strContains ['.'] ((splitOnChar '/' uri).getLastD []) = true →
       handler now ev = .ok (.request req, ⟨some req⟩)) := by
  obtain ⟨r⟩ := ev
  cases hreq
  constructor
  · intro hroot hdot
    exact handler_eq_of_try now _ _
      (handler_try_spa_rewrite now req uri huri hoauth hprot hroot hdot)
  · intro hrd
    exact handler_eq_of_try now _ _
      (handler_try_passthrough now req uri huri hoauth hprot hrd)

theorem C6_spa_fallback_or_passthrough_witness :
    evC6.request = some reqC6 ∧ reqC6.uri = some "/some/nested/route".toList ∧
    ¬("/some/nested/route".toList = "/".toList ∧
        strContains "code=".toList (reqC6.querystring.getD []) = true) ∧
    is_protected_route "/some/nested/route".toList = false ∧
    (("/some/nested/route".toList ≠ "/".toList →
        strContains ['.'] ((splitOnChar '/' "/some/nested/route".toList).getLastD []) = false →
        handler 0 evC6 =
          .ok (.request (rewritten_request reqC6), ⟨some (rewritten_request reqC6)⟩)) ∧
     ("/some/nested/route".toList = "/".toList ∨
        strContains ['.'] ((splitOnChar '/' "/some/nested/route".toList).getLastD []) = true →
        handler 0 evC6 = .ok (.request reqC6, ⟨some reqC6⟩))) :=
  ⟨rfl, rfl, by decide, by decide,
   C6_spa_fallback_or_passthrough 0 evC6 reqC6 "/some/nested/route".toList
     rfl rfl (by decide) (by decide)⟩

/-- C8: on a protected route, a token whose payload fails to parse (wrong
segment count, bad urlsafe-base64 after `(4 - len % 4) % 4` `=`-padding,
bad UTF-8, or invalid JSON — exactly the inputs with
`parse_jwt_payload tok = none`) is treated like an absent token: the gate
answers with the login redirect and no error reaches the caller. -/
theorem C8_malformed_token_redirect (now : Int) (ev : Event) (req : CFRequest) (uri : Str)
    (tok : Str) (host : Str)
    (hreq : ev.request = some req) (huri : req.uri = some uri)
    (hprot : is_protected_route uri = true)
    (hck : cookie_token (req.headers.getD []) = .ok (some tok))
    (hparse : parse_jwt_payload tok = none)
    (hhost : host_value (req.headers.getD []) = .ok host) :
    handler now ev = .ok (.response (create_login_redirect uri host), ⟨some req⟩) := by
  obtain ⟨r⟩ := ev
  cases hreq
  have hauth : auth_ok now (some tok) = false := by
    unfold auth_ok
    by_cases he : tokenFalsy (some tok) = true
    · rw [if_pos he]
    · rw [if_neg he]
      simp only [Option.getD_some, hparse]
  exact handler_eq_of_try now _ _
    (handler_try_protected_redirect now req uri (some tok) host huri hprot hck hauth hhost)

theorem C8_malformed_token_redirect_witness :
    evC8.request = some reqC8 ∧ reqC8.uri = some "/admin".toList ∧
    is_protected_route "/admin".toList = true ∧
    cookie_token (reqC8.headers.getD []) = .ok (some "abc".toList) ∧
    parse_jwt_payload "abc".toList = none ∧
    host_value (reqC8.headers.getD []) = .ok "example.com".toList ∧
    handler 0 evC8 =
      .ok (.response (create_login_redirect "/admin".toList "example.com".toList),
           ⟨some reqC8⟩) :=
  ⟨rfl, rfl, by decide, rfl, rfl, rfl,
   C8_malformed_token_redirect 0 evC8 reqC8 "/admin".toList "abc".toList
     "example.com".toList rfl rfl (by decide) rfl rfl rfl⟩

/-- C9: a protected path whose final segment contains a dot (such as
`/admin/report.pdf`) never reaches the asset/SPA-fallback logic: without
a valid token the gate redirects to login, and with a valid token it
rewrites to `/index.html` (adding the two authentication headers); in
neither case is the request passed through as a static-asset request. -/
theorem C9_protected_dotted_precedence (now : Int) (ev : Event) (req : CFRequest) (uri : Str)
    (tokOpt : Option Str) (host : Str)
    (hreq : ev.request = some req) (huri : req.uri = some uri)
    (hprot : is_protected_route uri = true)
    (hdot : strContains ['.'] ((splitOnChar '/' uri).getLastD []) = true)
    (hck : cookie_token (req.headers.getD []) = .ok tokOpt)
    (hhost : host_value (req.headers.getD []) = .ok host) :
    (auth_ok now tokOpt = false →
       handler now ev = .ok (.response (create_login_redirect uri host), ⟨some req⟩)) ∧
    (auth_ok now tokOpt = true →
       ∃ h0 kvs, req.headers = some h0 ∧
         parse_jwt_payload (tokOpt.getD []) = some (.obj kvs) ∧
         handler now ev = .ok (.request (rewritten_auth_request req h0 (email_value kvs)),
           ⟨some (rewritten_auth_request req h0 (email_value kvs))⟩)) := by
  obtain ⟨r⟩ := ev
  cases hreq
  constructor
  · intro hauth
    exact handler_eq_of_try now _ _
      (handler_try_protected_redirect now req uri tokOpt host huri hprot hck hauth hhost)
  · intro hauth
    obtain ⟨kvs, htf, hp, hpf, hv⟩ := auth_ok_true_elim hauth
    obtain ⟨h0, hh0, hres⟩ :=
      handler_try_protected_rewrite now req uri tokOpt kvs huri hprot hck htf hp hpf hv
    exact ⟨h0, kvs, hh0, hp, handler_eq_of_try now _ _ hres⟩

theorem C9_protected_dotted_precedence_witness :
    evC9.request = some reqC9 ∧ reqC9.uri = some "/admin/report.pdf".toList ∧
    is_protected_route "/admin/report.pdf".toList = true ∧
    strContains ['.']
      ((splitOnChar '/' "/admin/report.pdf".toList).getLastD []) = true ∧
    cookie_token (reqC9.headers.getD []) = .ok none ∧
    host_value (reqC9.headers.getD []) = .ok "example.com".toList ∧
    ((auth_ok 0 none = false →
        handler 0 evC9 =
          .ok (.response (create_login_redirect "/admin/report.pdf".toList
                 "example.com".toList), ⟨some reqC9⟩)) ∧
     (auth_ok 0 none = true →
        ∃ h0 kvs, reqC9.headers = some h0 ∧
          parse_jwt_payload ((none : Option Str).getD []) = some (.obj kvs) ∧
          handler 0 evC9 =
            .ok (.request (rewritten_auth_request reqC9 h0 (email_value kvs)),
              ⟨some (rewritten_auth_request reqC9 h0 (email_value kvs))⟩))) :=
  ⟨rfl, rfl, by decide, by decide, rfl, rfl,
   C9_protected_dotted_precedence 0 evC9 reqC9 "/admin/report.pdf".toList none
     "example.com".toList rfl rfl (by decide) (by decide) rfl rfl⟩

/-- C10: at the root path the OAuth-callback branch fires whenever
`code=` occurs anywhere as a substring of the query string — the check
is `"code=" in querystring`, not a parameter lookup — so query strings
such as `error_code=5` and `decode=1`, which contain no `code` query
parameter at all, still produce the `/index.html` rewrite. -/
theorem C10_code_substring_false_positive :
    (∀ (now : Int) (ev : Event) (req : CFRequest),
       ev.request = some req → req.uri = some "/".toList →
       strContains "code=".toList (req.querystring.getD []) = true →
       handler now ev =
         .ok (.request (rewritten_request req), ⟨some (rewritten_request req)⟩)) ∧
    strContains "code=".toList "error_code=5".toList = true ∧
    queryParamValue "code".toList "error_code=5".toList = none ∧
    strContains "code=".toList "decode=1".toList = true ∧
    queryParamValue "code".toList "decode=1".toList = none ∧
    handler 0 evC10 =
      .ok (.request (rewritten_request reqC10), ⟨some (rewritten_request reqC10)⟩) := by
  refine ⟨?_, by decide, by decide, by decide, by decide, rfl⟩
  intro now ev req hreq huri hcode
  obtain ⟨r⟩ := ev
  cases hreq
  exact handler_eq_of_try now _ _ (handler_try_oauth now req huri hcode)

theorem C10_code_substring_false_positive_witness :
    evC10b.request = some reqC10b ∧ reqC10b.uri = some "/".toList ∧
    strContains "code=".toList (reqC10b.querystring.getD []) = true ∧
    handler 0 evC10b =
      .ok (.request (rewritten_request reqC10b), ⟨some (rewritten_request reqC10b)⟩) :=
  ⟨rfl, rfl, by decide,
   (C10_code_substring_false_positive).1 0 evC10b reqC10b rfl rfl (by decide)⟩

/-! ## Lemmas toward the login-redirect round trip (C7) -/

lemma afterChar_append_not_mem (c : Char) (xs ys : Str) (h : c ∉ xs) :
    afterChar c (xs ++ ys) = afterChar c ys := by
  induction xs with
  | nil => rfl
  | cons x xs' ih =>
    have hx : ¬(x = c) := fun he => h (he ▸ List.mem_cons_self x xs')
    rw [List.cons_append, afterChar, if_neg hx]
    exact ih fun hm => h (List.mem_cons_of_mem x hm)

lemma afterChar_cons_eq (c : Char) (xs : Str) : afterChar c (c :: xs) = some xs := by
  rw [afterChar, if_pos rfl]

lemma splitOnChar_ne_nil (c : Char) (ys : Str) : splitOnChar c ys ≠ [] := by
  cases ys with
  | nil => simp [splitOnChar]
  | cons y ys' =>
    rw [splitOnChar]
    rcases hs : splitOnChar c ys' with _ | ⟨a, t⟩ <;>
      · simp only [hs]
        split <;> simp

lemma splitOnChar_not_mem (c : Char) (xs : Str) (h : c ∉ xs) :
    splitOnChar c xs = [xs] := by
  induction xs with
  | nil => rfl
  | cons x xs' ih =>
    have hx : ¬(x = c) := fun he => h (he ▸ List.mem_cons_self x xs')
    rw [splitOnChar, ih fun hm => h (List.mem_cons_of_mem x hm)]
    simp [hx]

lemma splitOnChar_append (c : Char) (xs ys : Str) (h : c ∉ xs) :
    splitOnChar c (xs ++ c :: ys) = xs :: splitOnChar c ys := by
  induction xs with
  | nil =>
    rw [List.nil_append, splitOnChar]
    rcases hs : splitOnChar c ys with _ | ⟨a, t⟩
    · exact absurd hs (splitOnChar_ne_nil c ys)
    · simp
  | cons x xs' ih =>
    have hx : ¬(x = c) := fun he => h (he ▸ List.mem_cons_self x xs')
    rw [List.cons_append, splitOnChar, ih fun hm => h (List.mem_cons_of_mem x hm)]
    simp [hx]

lemma hexVal_hexUpper : ∀ n < 16, hexVal (hexUpper n) = some n := by decide

lemma hexVal_hexLower : ∀ n < 16, hexVal (hexLower n) = some n := by decide

lemma utf8EncodeChar_ascii {c : Char} (h : c.toNat < 0x80) :
    utf8EncodeChar c = [c.toNat] := by
  rw [utf8EncodeChar]
  simp [h]

lemma pyQuote_cons (c : Char) (s : Str) :
    pyQuote (c :: s) =
      (if isAlwaysSafe c then [c]
       else ((utf8EncodeChar c).map pctEncodeByte).flatten) ++ pyQuote s := by
  simp [pyQuote]

lemma isAlwaysSafe_ne_pct {c : Char} (h : isAlwaysSafe c = true) : c ≠ '%' := by
  intro he
  rw [he] at h
  exact absurd h (by decide)

lemma char_toNat_lt (c : Char) : c.toNat < 0x110000 := by
  rcases c.valid with h | ⟨h1, h2⟩
  · exact lt_trans h (by norm_num)
  · exact h2

lemma utf8EncodeChar_lt_256 (c : Char) : ∀ b ∈ utf8EncodeChar c, b < 256 := by
  intro b hb
  have hc := char_toNat_lt c
  rw [utf8EncodeChar] at hb
  by_cases h1 : c.toNat < 0x80
  · simp [h1] at hb; omega
  · by_cases h2 : c.toNat < 0x800
    · simp [h1, h2] at hb
      rcases hb with rfl | rfl <;> omega
    · by_cases h3 : c.toNat < 0x10000
      · simp [h1, h2, h3] at hb
        rcases hb with rfl | rfl | rfl <;> omega
      · simp [h1, h2, h3] at hb
        rcases hb with rfl | rfl | rfl | rfl <;> omega

lemma hexUpper_ne_amp : ∀ n < 16, hexUpper n ≠ '&' := by decide

lemma amp_not_mem_pyQuote (s : Str) : '&' ∉ pyQuote s := by
  induction s with
  | nil => simp [pyQuote]
  | cons c s' ih =>
    rw [pyQuote_cons]
    intro hm
    rcases List.mem_append.mp hm with hm | hm
    · split at hm
      · rename_i hsafe
        rcases List.mem_singleton.mp hm with rfl
        exact absurd hsafe (by decide)
      · rcases List.mem_flatten.mp hm with ⟨piece, hpm, hcm⟩
        rcases List.mem_map.mp hpm with ⟨b, hbm, rfl⟩
        have hb := utf8EncodeChar_lt_256 c b hbm
        simp only [pctEncodeByte, List.mem_cons, List.not_mem_nil, or_false] at hcm
        rcases hcm with hcm | hcm | hcm
        · exact absurd hcm (by decide)
        · exact hexUpper_ne_amp (b / 16) (by omega) hcm.symm
        · exact hexUpper_ne_amp (b % 16) (by omega) hcm.symm
    · exact ih hm

lemma pyUnquoteBytes_cons_ne (c : Char) (rest : Str) (hc : c ≠ '%') :
    pyUnquoteBytes (c :: rest) = utf8EncodeChar c ++ pyUnquoteBytes rest := by
  rw [pyUnquoteBytes]
  exact fun h1 h2 r he _ => hc he

lemma pyUnquoteBytes_pct (h1 h2 : Char) (rest : Str) (a b : Nat)
    (ha : hexVal h1 = some a) (hb : hexVal h2 = some b) :
    pyUnquoteBytes ('%' :: h1 :: h2 :: rest) = (a * 16 + b) :: pyUnquoteBytes rest := by
  rw [pyUnquoteBytes, ha, hb]

lemma pyUnquoteBytes_quote_ascii (s : Str) (h : ∀ c ∈ s, c.toNat < 0x80) :
    pyUnquoteBytes (pyQuote s) = s.map Char.toNat := by
  induction s with
  | nil => rfl
  | cons c s' ih =>
    have hc : c.toNat < 0x80 := h c (List.mem_cons_self c s')
    have ih' := ih fun x hx => h x (List.mem_cons_of_mem c hx)
    rw [pyQuote_cons]
    split
    · rename_i hsafe
      rw [List.singleton_append,
        pyUnquoteBytes_cons_ne c (pyQuote s') (isAlwaysSafe_ne_pct hsafe),
        utf8EncodeChar_ascii hc, ih', List.map_cons, List.singleton_append]
    · rw [utf8EncodeChar_ascii hc]
      simp only [List.map_cons, List.map_nil, List.flatten_cons, List.flatten_nil,
        List.append_nil, pctEncodeByte]
      rw [List.cons_append, List.cons_append, List.cons_append, List.nil_append]
      rw [pyUnquoteBytes_pct _ _ _ _ _
        (hexVal_hexUpper (c.toNat / 16) (by omega)) (hexVal_hexUpper (c.toNat % 16) (by omega))]
      rw [ih']
      congr 1
      omega

lemma utf8DecodeLoop_map_toNat (s : Str) (h : ∀ c ∈ s, c.toNat < 0x80) :
    utf8DecodeLoop (s.map Char.toNat).length (s.map Char.toNat) = some s := by
  induction s with
  | nil => rfl
  | cons c s' ih =>
    have hc : c.toNat < 0x80 := h c (List.mem_cons_self c s')
    have h1 : utf8DecodeOne (c.toNat :: List.map Char.toNat s') =
        some (c.toNat, List.map Char.toNat s') := by
      simp [utf8DecodeOne, hc]
    rw [List.map_cons, List.length_cons, utf8DecodeLoop, h1]
    simp only [ih fun x hx => h x (List.mem_cons_of_mem c hx),
      Option.map_some', Char.ofNat_toNat]

lemma utf8Decode_map_toNat (s : Str) (h : ∀ c ∈ s, c.toNat < 0x80) :
    utf8Decode (s.map Char.toNat) = some s := by
  rw [utf8Decode]
  exact utf8DecodeLoop_map_toNat s h

lemma pyUnquote_pyQuote_ascii (s : Str) (h : ∀ c ∈ s, c.toNat < 0x80) :
    pyUnquote (pyQuote s) = some s := by
  rw [pyUnquote, pyUnquoteBytes_quote_ascii s h, utf8Decode_map_toNat s h]

lemma hexLower_ascii : ∀ n < 16, (hexLower n).toNat < 0x80 := by decide

lemma jsonUEscape_ascii (n : Nat) : ∀ x ∈ jsonUEscape n, x.toNat < 0x80 := by
  intro x hx
  simp only [jsonUEscape, hex4Lower, List.mem_cons, List.not_mem_nil, or_false] at hx
  rcases hx with rfl | rfl | rfl | rfl | rfl | rfl
  · decide
  · decide
  all_goals exact hexLower_ascii _ (Nat.mod_lt _ (by norm_num))

lemma jsonEscapeChar_ascii (c : Char) : ∀ x ∈ jsonEscapeChar c, x.toNat < 0x80 := by
  intro x hx
  unfold jsonEscapeChar at hx
  repeat' split at hx
  all_goals
    first
    | (simp only [List.mem_cons, List.not_mem_nil, or_false] at hx
       rcases hx with rfl | rfl <;> decide)
    | (rcases List.mem_singleton.mp hx with rfl; omega)
    | exact jsonUEscape_ascii _ x hx
    | (rcases List.mem_append.mp hx with hx | hx <;> exact jsonUEscape_ascii _ x hx)

lemma jsonDumpsTargetObj_ascii (uri : Str) :
    ∀ x ∈ jsonDumpsTargetObj uri, x.toNat < 0x80 := by
  intro x hx
  unfold jsonDumpsTargetObj jsonDumpsStr at hx
  rcases List.mem_append.mp hx with hx | hx
  · rcases List.mem_append.mp hx with hx | hx
    · exact (by decide : ∀ x ∈ "\x7b\"target\": ".toList, x.toNat < 0x80) x hx
    · rcases List.mem_cons.mp hx with rfl | hx
      · decide
      · rcases List.mem_append.mp hx with hx | hx
        · rcases List.mem_flatten.mp hx with ⟨piece, hpm, hcm⟩
          rcases List.mem_map.mp hpm with ⟨c, _, rfl⟩
          exact jsonEscapeChar_ascii c x hcm
        · rcases List.mem_singleton.mp hx with rfl; decide
  · rcases List.mem_singleton.mp hx with rfl; decide

lemma parseUEscape_hex4 (n : Nat) (X : Str) (hn : n < 0x10000)
    (hval : n < 0xD800 ∨ 0xE000 ≤ n) :
    parseUEscape (hex4Lower n ++ X) = some (n, X) := by
  have h1 := hexVal_hexLower (n / 4096 % 16) (by omega)
  have h2 := hexVal_hexLower (n / 256 % 16) (by omega)
  have h3 := hexVal_hexLower (n / 16 % 16) (by omega)
  have h4 := hexVal_hexLower (n % 16) (by omega)
  have hre : ((n / 4096 % 16 * 16 + n / 256 % 16) * 16 + n / 16 % 16) * 16 + n % 16 = n := by
    omega
  simp only [hex4Lower, List.cons_append, parseUEscape]
  simp only [h1, h2, h3, h4, hre]
  rw [if_neg (by omega : ¬(0xD800 ≤ n ∧ n < 0xDC00)), List.nil_append]

lemma parseLowSurrogate_hex4 (n m : Nat) (X : Str)
    (hm1 : 0xDC00 ≤ m) (hm2 : m < 0xE000) :
    parseLowSurrogate n ('\\' :: 'u' :: (hex4Lower m ++ X)) =
      some (0x10000 + (n - 0xD800) * 0x400 + (m - 0xDC00), X) := by
  have h1 := hexVal_hexLower (m / 4096 % 16) (by omega)
  have h2 := hexVal_hexLower (m / 256 % 16) (by omega)
  have h3 := hexVal_hexLower (m / 16 % 16) (by omega)
  have h4 := hexVal_hexLower (m % 16) (by omega)
  have hre : ((m / 4096 % 16 * 16 + m / 256 % 16) * 16 + m / 16 % 16) * 16 + m % 16 = m := by
    omega
  simp only [hex4Lower, List.cons_append, parseLowSurrogate]
  rw [if_pos ⟨trivial, trivial⟩]
  simp only [h1, h2, h3, h4, hre]
  rw [if_pos ⟨hm1, hm2⟩, List.nil_append]

lemma parseUEscape_surrogate (hi lo n : Nat) (X : Str)
    (hhi : hi = 0xD800 + (n - 0x10000) / 0x400)
    (hlo : lo = 0xDC00 + (n - 0x10000) % 0x400)
    (hn1 : 0x10000 ≤ n) (hn2 : n < 0x110000) :
    parseUEscape (hex4Lower hi ++ ('\\' :: 'u' :: (hex4Lower lo ++ X))) = some (n, X) := by
  have h1 := hexVal_hexLower (hi / 4096 % 16) (by omega)
  have h2 := hexVal_hexLower (hi / 256 % 16) (by omega)
  have h3 := hexVal_hexLower (hi / 16 % 16) (by omega)
  have h4 := hexVal_hexLower (hi % 16) (by omega)
  have hre : ((hi / 4096 % 16 * 16 + hi / 256 % 16) * 16 + hi / 16 % 16) * 16 + hi % 16 = hi := by
    omega
  have hr1 : 0xD800 ≤ hi ∧ hi < 0xDC00 := by omega
  have hcomb : 0x10000 + (hi - 0xD800) * 0x400 + (lo - 0xDC00) = n := by omega
  rw [show hex4Lower hi = [hexLower (hi / 4096 % 16), hexLower (hi / 256 % 16),
        hexLower (hi / 16 % 16), hexLower (hi % 16)] from rfl]
  simp only [List.cons_append, List.nil_append, parseUEscape]
  simp only [h1, h2, h3, h4, hre]
  rw [if_pos hr1]
  rw [parseLowSurrogate_hex4 hi lo X (by omega) (by omega), hcomb]

lemma parseStringBody_u_step (F : Nat) (rest1 X : Str) (m : Nat)
    (h : parseUEscape rest1 = some (m, X)) :
    parseStringBody (F + 1) ('\\' :: 'u' :: rest1) =
      (parseStringBody F X).map fun (s, r) => (m :: s, r) := by
  simp only [parseStringBody]
  simp only [Char.reduceEq, reduceIte, ite_true, ite_false]
  rw [h]

lemma parseStringBody_escaped :
    ∀ (F : Nat) (s rest : Str), s.length + 1 ≤ F →
      parseStringBody F ((s.map jsonEscapeChar).flatten ++ '"' :: rest) =
        some (s.map Char.toNat, rest) := by
  intro F
  induction F with
  | zero => intro s rest h; omega
  | succ F ih =>
    intro s rest h
    cases s with
    | nil =>
      simp only [List.map_nil, List.flatten_nil, List.nil_append]
      simp only [parseStringBody]
      rw [if_true]
    | cons c s' =>
      have hlen : s'.length + 1 ≤ F := by
        simp only [List.length_cons] at h
        omega
      have IH := ih s' rest hlen
      rw [List.map_cons, List.flatten_cons, List.append_assoc]
      by_cases h1 : c = '"'
      · subst h1
        rw [show jsonEscapeChar '"' = ['\\', '"'] from rfl]
        simp only [List.cons_append, List.singleton_append, List.nil_append,
          List.append_eq, parseStringBody, Char.reduceEq, reduceIte, ite_true, ite_false]
        rw [IH]
        rfl
      · by_cases h2 : c = '\\'
        · subst h2
          rw [show jsonEscapeChar '\\' = ['\\', '\\'] from rfl]
          simp only [List.cons_append, List.singleton_append, List.nil_append,
            List.append_eq, parseStringBody, Char.reduceEq, reduceIte, ite_true, ite_false]
          rw [IH]
          rfl
        · by_cases h3 : c = '\n'
          · subst h3
            rw [show jsonEscapeChar '\n' = ['\\', 'n'] from rfl]
            simp only [List.cons_append, List.singleton_append, List.nil_append,
              List.append_eq, parseStringBody, Char.reduceEq, reduceIte, ite_true, ite_false]
            rw [IH]
            rfl
          · by_cases h4 : c = '\r'
            · subst h4
              rw [show jsonEscapeChar '\r' = ['\\', 'r'] from rfl]
              simp only [List.cons_append, List.singleton_append, List.nil_append,
                List.append_eq, parseStringBody, Char.reduceEq, reduceIte, ite_true, ite_false]
              rw [IH]
              rfl
            · by_cases h5 : c = '\t'
              · subst h5
                rw [show jsonEscapeChar '\t' = ['\\', 't'] from rfl]
                simp only [List.cons_append, List.singleton_append, List.nil_append,
                  List.append_eq, parseStringBody, Char.reduceEq, reduceIte, ite_true, ite_false]
                rw [IH]
                rfl
              · by_cases h6 : c = '\x08'
                · subst h6
                  rw [show jsonEscapeChar '\x08' = ['\\', 'b'] from rfl]
                  simp only [List.cons_append, List.singleton_append, List.nil_append,
                    List.append_eq, parseStringBody, Char.reduceEq, reduceIte, ite_true, ite_false]
                  rw [IH]
                  rfl
                · by_cases h7 : c = '\x0c'
                  · subst h7
                    rw [show jsonEscapeChar '\x0c' = ['\\', 'f'] from rfl]
                    simp only [List.cons_append, List.singleton_append, List.nil_append,
                      List.append_eq, parseStringBody, Char.reduceEq, reduceIte, ite_true, ite_false]
                    rw [IH]
                    rfl
                  · have hesc : jsonEscapeChar c =
                        (if 0x20 ≤ c.toNat ∧ c.toNat ≤ 0x7e then [c]
                         else if c.toNat < 0x10000 then jsonUEscape c.toNat
                         else jsonUEscape (0xD800 + (c.toNat - 0x10000) / 0x400) ++
                           jsonUEscape (0xDC00 + (c.toNat - 0x10000) % 0x400)) := by
                      unfold jsonEscapeChar
                      rw [if_neg h1, if_neg h2, if_neg h3, if_neg h4, if_neg h5,
                        if_neg h6, if_neg h7]
                    rw [hesc]
                    by_cases hp : 0x20 ≤ c.toNat ∧ c.toNat ≤ 0x7e
                    · rw [if_pos hp]
                      simp only [List.cons_append, List.singleton_append,
                        List.nil_append, List.append_eq, parseStringBody]
                      rw [if_neg h1, if_neg h2, if_neg (by omega : ¬(c.toNat < 0x20))]
                      rw [IH]
                      rfl
                    · rw [if_neg hp]
                      have hval : c.toNat < 0xD800 ∨ 0xE000 ≤ c.toNat := by
                        rcases c.valid with hv | ⟨hv, _⟩
                        · exact Or.inl hv
                        · exact Or.inr hv
                      by_cases hbmp : c.toNat < 0x10000
                      · rw [if_pos hbmp]
                        simp only [jsonUEscape, List.cons_append]
                        rw [parseStringBody_u_step F _ _ _
                          (parseUEscape_hex4 c.toNat _ hbmp hval)]
                        rw [IH]
                        simp only [Option.map_some', List.map_cons]
                      · rw [if_neg hbmp]
                        simp only [jsonUEscape, List.cons_append, List.append_assoc]
                        rw [parseStringBody_u_step F _ _ _
                          (parseUEscape_surrogate _ _ c.toNat _ rfl rfl (by omega)
                            (char_toNat_lt c))]
                        rw [IH]
                        simp only [Option.map_some', List.map_cons]

lemma escape_flatten_length_ge (s : Str) :
    s.length ≤ ((s.map jsonEscapeChar).flatten).length := by
  induction s with
  | nil => simp
  | cons c s' ih =>
    rw [List.map_cons, List.flatten_cons, List.length_append, List.length_cons]
    have hc : 1 ≤ (jsonEscapeChar c).length := by
      unfold jsonEscapeChar
      repeat' split
      all_goals simp [jsonUEscape, hex4Lower]
    omega

lemma skipWs_cons_not {c : Char} (r : Str) (h : isJsonWs c = false) :
    skipWs (c :: r) = c :: r := by
  unfold skipWs
  exact List.dropWhile_cons_of_neg (by simp [h])

lemma isSurrogateCP_toNat (c : Char) : isSurrogateCP c.toNat = false := by
  have hv : c.toNat < 0xD800 ∨ 0xE000 ≤ c.toNat := by
    rcases c.valid with hv | ⟨hv, _⟩
    · exact Or.inl hv
    · exact Or.inr hv
  unfold isSurrogateCP
  simp only [Bool.and_eq_false_iff, decide_eq_false_iff_not, Nat.not_le, Nat.not_lt]
  omega

lemma mkPyStr_map_toNat (s : Str) : mkPyStr (s.map Char.toNat) = .str s := by
  unfold mkPyStr
  have hcond : (s.map Char.toNat).any isSurrogateCP = false := by
    rw [List.any_eq_false]
    intro x hx
    obtain ⟨c, _, rfl⟩ := List.mem_map.mp hx
    exact fun h => Bool.false_ne_true ((isSurrogateCP_toNat c).symm.trans h)
  rw [if_neg (by rw [hcond]; exact Bool.false_ne_true)]
  rw [List.map_map]
  exact congrArg PyJson.str
    ((List.map_congr_left fun c _ => Char.ofNat_toNat c).trans (List.map_id s))

lemma parseValue_dumpsTargetObj (k : Nat) (uri : Str) :
    parseValue (k + 3) (jsonDumpsTargetObj uri) =
      some (.obj [("target".toList, .str uri)], []) := by
  have hesc_t : (("target".toList).map jsonEscapeChar).flatten = "target".toList := by decide
  have hshape : jsonDumpsTargetObj uri =
      '{' :: '"' :: ("target".toList ++ '"' :: ':' :: ' ' ::
        ('"' :: ((uri.map jsonEscapeChar).flatten ++ '"' :: ['}']))) := by
    unfold jsonDumpsTargetObj jsonDumpsStr
    simp
  rw [hshape]
  rw [show k + 3 = (k + 2) + 1 from rfl]
  simp only [parseValue]
  rw [skipWs_cons_not _ (by decide)]
  simp only [Char.reduceEq, reduceIte, ite_true, ite_false]
  rw [skipWs_cons_not _ (by decide)]
  simp only [Char.reduceEq, reduceIte, ite_true, ite_false]
  rw [show k + 2 = (k + 1) + 1 from rfl]
  simp only [parseMembers]
  simp only [Char.reduceEq, reduceIte, ite_true, ite_false]
  have hT := parseStringBody_escaped
      (("target".toList ++ '"' :: ':' :: ' ' :: '"' ::
        ((uri.map jsonEscapeChar).flatten ++ ['"', '}'])).length)
      "target".toList
      (':' :: ' ' :: '"' :: ((uri.map jsonEscapeChar).flatten ++ ['"', '}']))
      (by simp [List.length_append])
  rw [hesc_t] at hT
  rw [hT]
  simp only []
  rw [skipWs_cons_not _ (by decide)]
  simp only [Char.reduceEq, reduceIte, ite_true, ite_false]
  simp only [parseValue]
  rw [show skipWs (' ' :: '"' :: ((uri.map jsonEscapeChar).flatten ++ ['"', '}'])) =
      skipWs ('"' :: ((uri.map jsonEscapeChar).flatten ++ ['"', '}'])) from
    List.dropWhile_cons_of_pos (by decide)]
  rw [skipWs_cons_not _ (by decide)]
  simp only [Char.reduceEq, reduceIte, ite_true, ite_false]
  have hU := parseStringBody_escaped
      (((uri.map jsonEscapeChar).flatten ++ ['"', '}']).length) uri ['}']
      (by rw [List.length_append]
          simp only [List.length_cons, List.length_nil]
          have := escape_flatten_length_ge uri; omega)
  rw [hU]
  simp only [Option.map_some']
  rw [mkPyStr_map_toNat]
  rw [skipWs_cons_not _ (by decide)]
  simp only [Char.reduceEq, reduceIte, ite_true, ite_false]
  rfl

lemma jsonLoads_dumpsTargetObj (uri : Str) :
    jsonLoads (jsonDumpsTargetObj uri) = some (.obj [("target".toList, .str uri)]) := by
  unfold jsonLoads
  have hlen : (jsonDumpsTargetObj uri).length + 1 =
      ((jsonDumpsTargetObj uri).length - 2) + 3 := by
    unfold jsonDumpsTargetObj jsonDumpsStr
    simp [List.length_append]
  rw [hlen, parseValue_dumpsTargetObj]
  rfl

lemma login_url_after_q (Q : Str) :
    afterChar '?' (("https://".toList ++ COGNITO_DOMAIN ++ "/login?".toList) ++ Q) =
      some Q := by
  have h : ("https://".toList ++ COGNITO_DOMAIN ++ "/login?".toList) ++ Q =
      ("https://".toList ++ COGNITO_DOMAIN ++ "/login".toList) ++ '?' :: Q := by
    rw [show "/login?".toList = "/login".toList ++ ['?'] from by decide]
    simp [List.append_assoc]
  rw [h, afterChar_append_not_mem _ _ _ (by decide), afterChar_cons_eq]

lemma login_query_split (e sp : Str) (he : '&' ∉ e) (hsp : '&' ∉ sp) :
    splitOnChar '&'
      ("client_id=".toList ++ COGNITO_CLIENT_ID ++ ['&'] ++
       "response_type=code&".toList ++
       "scope=email+openid+profile&".toList ++
       "redirect_uri=".toList ++ e ++ ['&'] ++
       "state=".toList ++ sp) =
      ["client_id=".toList ++ COGNITO_CLIENT_ID,
       "response_type=code".toList,
       "scope=email+openid+profile".toList,
       "redirect_uri=".toList ++ e,
       "state=".toList ++ sp] := by
  have harg :
      ("client_id=".toList ++ COGNITO_CLIENT_ID ++ ['&'] ++
       "response_type=code&".toList ++
       "scope=email+openid+profile&".toList ++
       "redirect_uri=".toList ++ e ++ ['&'] ++
       "state=".toList ++ sp) =
      ("client_id=".toList ++ COGNITO_CLIENT_ID) ++ '&' ::
        ("response_type=code".toList ++ '&' ::
          ("scope=email+openid+profile".toList ++ '&' ::
            (("redirect_uri=".toList ++ e) ++ '&' ::
              ("state=".toList ++ sp)))) := by
    rw [show "response_type=code&".toList =
        "response_type=code".toList ++ ['&'] from by decide,
      show "scope=email+openid+profile&".toList =
        "scope=email+openid+profile".toList ++ ['&'] from by decide]
    simp [List.append_assoc]
  rw [harg]
  rw [splitOnChar_append _ _ _ (by decide)]
  rw [splitOnChar_append _ _ _ (by decide)]
  rw [splitOnChar_append _ _ _ (by decide)]
  rw [splitOnChar_append _ _ _ (by
    intro hm
    rcases List.mem_append.mp hm with h | h
    · exact absurd h (by decide)
    · exact he h)]
  rw [splitOnChar_not_mem _ _ (by
    intro hm
    rcases List.mem_append.mp hm with h | h
    · exact absurd h (by decide)
    · exact hsp h)]

lemma queryParamValue_login_client_id (e sp : Str) (he : '&' ∉ e) (hsp : '&' ∉ sp) :
    queryParamValue "client_id".toList
      ("client_id=".toList ++ COGNITO_CLIENT_ID ++ ['&'] ++
       "response_type=code&".toList ++
       "scope=email+openid+profile&".toList ++
       "redirect_uri=".toList ++ e ++ ['&'] ++
       "state=".toList ++ sp) = some COGNITO_CLIENT_ID := by
  simp only [queryParamValue]
  rw [login_query_split e sp he hsp]
  rw [List.findSome?_cons]
  rw [if_pos (by
    rw [show ("client_id".toList ++ ['=']) = "client_id=".toList from by decide]
    exact List.isPrefixOf_iff_prefix.mpr (List.prefix_append _ _))]
  rw [show "client_id".toList.length + 1 = ("client_id=".toList).length from by decide,
    List.drop_left]

lemma queryParamValue_login_response_type (e sp : Str) (he : '&' ∉ e) (hsp : '&' ∉ sp) :
    queryParamValue "response_type".toList
      ("client_id=".toList ++ COGNITO_CLIENT_ID ++ ['&'] ++
       "response_type=code&".toList ++
       "scope=email+openid+profile&".toList ++
       "redirect_uri=".toList ++ e ++ ['&'] ++
       "state=".toList ++ sp) = some "code".toList := by
  simp only [queryParamValue]
  rw [login_query_split e sp he hsp]
  rw [List.findSome?_cons]
  rw [if_neg (by decide)]
  rw [List.findSome?_cons]
  rw [if_pos (by decide)]
  rfl

lemma queryParamValue_login_scope (e sp : Str) (he : '&' ∉ e) (hsp : '&' ∉ sp) :
    queryParamValue "scope".toList
      ("client_id=".toList ++ COGNITO_CLIENT_ID ++ ['&'] ++
       "response_type=code&".toList ++
       "scope=email+openid+profile&".toList ++
       "redirect_uri=".toList ++ e ++ ['&'] ++
       "state=".toList ++ sp) = some "email+openid+profile".toList := by
  simp only [queryParamValue]
  rw [login_query_split e sp he hsp]
  rw [List.findSome?_cons]
  rw [if_neg (by decide)]
  rw [List.findSome?_cons]
  rw [if_neg (by decide)]
  rw [List.findSome?_cons]
  rw [if_pos (by decide)]
  rfl

lemma queryParamValue_login_redirect_uri (e sp : Str) (he : '&' ∉ e) (hsp : '&' ∉ sp) :
    queryParamValue "redirect_uri".toList
      ("client_id=".toList ++ COGNITO_CLIENT_ID ++ ['&'] ++
       "response_type=code&".toList ++
       "scope=email+openid+profile&".toList ++
       "redirect_uri=".toList ++ e ++ ['&'] ++
       "state=".toList ++ sp) = some e := by
  simp only [queryParamValue]
  rw [login_query_split e sp he hsp]
  rw [List.findSome?_cons]
  rw [if_neg (by decide)]
  rw [List.findSome?_cons]
  rw [if_neg (by decide)]
  rw [List.findSome?_cons]
  rw [if_neg (by decide)]
  rw [List.findSome?_cons]
  rw [if_pos (by
    rw [show ("redirect_uri".toList ++ ['=']) = "redirect_uri=".toList from by decide]
    exact List.isPrefixOf_iff_prefix.mpr (List.prefix_append _ _))]
  rw [show "redirect_uri".toList.length + 1 = ("redirect_uri=".toList).length from by decide,
    List.drop_left]

lemma queryParamValue_login_state (e sp : Str) (he : '&' ∉ e) (hsp : '&' ∉ sp) :
    queryParamValue "state".toList
      ("client_id=".toList ++ COGNITO_CLIENT_ID ++ ['&'] ++
       "response_type=code&".toList ++
       "scope=email+openid+profile&".toList ++
       "redirect_uri=".toList ++ e ++ ['&'] ++
       "state=".toList ++ sp) = some sp := by
  simp only [queryParamValue]
  rw [login_query_split e sp he hsp]
  rw [List.findSome?_cons]
  rw [if_neg (by decide)]
  rw [List.findSome?_cons]
  rw [if_neg (by decide)]
  rw [List.findSome?_cons]
  rw [if_neg (by decide)]
  rw [List.findSome?_cons]
  rw [show "redirect_uri=".toList = 'r' :: "edirect_uri=".toList from by decide,
    List.cons_append]
  rw [if_neg (by
    rw [show ("state".toList ++ ['=']) = 's' :: "tate=".toList from by decide]
    simp [List.isPrefixOf])]
  rw [List.findSome?_cons]
  rw [if_pos (by
    rw [show ("state".toList ++ ['=']) = "state=".toList from by decide]
    exact List.isPrefixOf_iff_prefix.mpr (List.prefix_append _ _))]
  rw [show "state".toList.length + 1 = ("state=".toList).length from by decide,
    List.drop_left]

/-- C7: every login redirect is a 302 "Found" response carrying the
no-store Cache-Control header and a Location on the configured Cognito
domain's /login endpoint whose query string has client_id,
response_type=code, scope=email+openid+profile, the URL-encoded
redirect_uri https://<host>/, and a state parameter that URL-decodes and
JSON-parses back to exactly the object with "target" mapped to the
original URI. -/
theorem C7_login_redirect_round_trip (uri host : Str) :
    (create_login_redirect uri host).status = "302".toList ∧
    (create_login_redirect uri host).statusDescription = "Found".toList ∧
    dictGet (create_login_redirect uri host).headers "cache-control".toList =
      some [⟨some "Cache-Control".toList,
             some "no-cache, no-store, must-revalidate".toList⟩] ∧
    ∃ loc,
      dictGet (create_login_redirect uri host).headers "location".toList =
        some [⟨some "Location".toList, some loc⟩] ∧
      ("https://".toList ++ COGNITO_DOMAIN ++ "/login?".toList) <+: loc ∧
      urlQueryParam "client_id".toList loc = some COGNITO_CLIENT_ID ∧
      urlQueryParam "response_type".toList loc = some "code".toList ∧
      urlQueryParam "scope".toList loc = some "email+openid+profile".toList ∧
      urlQueryParam "redirect_uri".toList loc =
        some (pyQuote ("https://".toList ++ host ++ ['/'])) ∧
      (urlQueryParam "state".toList loc).bind
          (fun st => (pyUnquote st).bind jsonLoads) =
        some (.obj [("target".toList, .str uri)]) := by
  have hgrp :
      ("https://".toList ++ COGNITO_DOMAIN ++ "/login?".toList ++
       "client_id=".toList ++ COGNITO_CLIENT_ID ++ ['&'] ++
       "response_type=code&".toList ++
       "scope=email+openid+profile&".toList ++
       "redirect_uri=".toList ++ pyQuote ("https://".toList ++ host ++ ['/']) ++ ['&'] ++
       "state=".toList ++ pyQuote (jsonDumpsTargetObj uri)) =
      ("https://".toList ++ COGNITO_DOMAIN ++ "/login?".toList) ++
      ("client_id=".toList ++ COGNITO_CLIENT_ID ++ ['&'] ++
       "response_type=code&".toList ++
       "scope=email+openid+profile&".toList ++
       "redirect_uri=".toList ++ pyQuote ("https://".toList ++ host ++ ['/']) ++ ['&'] ++
       "state=".toList ++ pyQuote (jsonDumpsTargetObj uri)) := by
    simp [List.append_assoc]
  have hq : ∀ name : Str,
      urlQueryParam name
        ("https://".toList ++ COGNITO_DOMAIN ++ "/login?".toList ++
         "client_id=".toList ++ COGNITO_CLIENT_ID ++ ['&'] ++
         "response_type=code&".toList ++
         "scope=email+openid+profile&".toList ++
         "redirect_uri=".toList ++ pyQuote ("https://".toList ++ host ++ ['/']) ++ ['&'] ++
         "state=".toList ++ pyQuote (jsonDumpsTargetObj uri)) =
      queryParamValue name
        ("client_id=".toList ++ COGNITO_CLIENT_ID ++ ['&'] ++
         "response_type=code&".toList ++
         "scope=email+openid+profile&".toList ++
         "redirect_uri=".toList ++ pyQuote ("https://".toList ++ host ++ ['/']) ++ ['&'] ++
         "state=".toList ++ pyQuote (jsonDumpsTargetObj uri)) := by
    intro name
    simp only [urlQueryParam]
    rw [hgrp, login_url_after_q]
    rfl
  refine ⟨rfl, rfl, rfl,
    "https://".toList ++ COGNITO_DOMAIN ++ "/login?".toList ++
      "client_id=".toList ++ COGNITO_CLIENT_ID ++ ['&'] ++
      "response_type=code&".toList ++
      "scope=email+openid+profile&".toList ++
      "redirect_uri=".toList ++ pyQuote ("https://".toList ++ host ++ ['/']) ++ ['&'] ++
      "state=".toList ++ pyQuote (jsonDumpsTargetObj uri),
    rfl, ?_, ?_, ?_, ?_, ?_, ?_⟩
  · rw [hgrp]
    exact List.prefix_append _ _
  · rw [hq]
    exact queryParamValue_login_client_id _ _
      (amp_not_mem_pyQuote _) (amp_not_mem_pyQuote _)
  · rw [hq]
    exact queryParamValue_login_response_type _ _
      (amp_not_mem_pyQuote _) (amp_not_mem_pyQuote _)
  · rw [hq]
    exact queryParamValue_login_scope _ _
      (amp_not_mem_pyQuote _) (amp_not_mem_pyQuote _)
  · rw [hq]
    exact queryParamValue_login_redirect_uri _ _
      (amp_not_mem_pyQuote _) (amp_not_mem_pyQuote _)
  · rw [hq, queryParamValue_login_state _ _
      (amp_not_mem_pyQuote _) (amp_not_mem_pyQuote _)]
    rw [Option.some_bind]
    rw [pyUnquote_pyQuote_ascii _ (jsonDumpsTargetObj_ascii uri)]
    rw [Option.some_bind]
    exact jsonLoads_dumpsTargetObj uri
